import Mathlib

/-!
# Verification of the Blockly ⇄ JavaScript translator of the Reachy Mini block app

This development shallowly embeds the two directions of the translator:

* the JavaScript-to-blocks direction (`jsToBlocks`, `processStatement`,
  `processExpression`, `processCall`, `flattenStringConcat`, … from the
  block-app module), and
* the Python code generator (`Blockly.Python.*` from the Python generator
  module: `init`, `finish`, `valueToCode`, `statementToCode`, `blockToCode`,
  `workspaceToCode` and the per-block-type rule table `forBlock`).

Recursive traversals are embedded with an explicit fuel parameter (the
JavaScript originals recurse on the AST/graph structure); all other control
flow mirrors the source line by line.  JavaScript numeric literals that the
translator inspects are modelled as integers (the translator only compares
them with `180` and adds `1`).  Workspace layout (pixel positions, SVG
rendering) is an external concern and is not modelled; variable handles are
modelled with the variable name as its own identifier.
-/

namespace ReachyBlockly

/-! ## The AST produced by the external parser (acorn)

Only the shapes the translator inspects are modelled.  A non-computed
member access stores its property as `Expr.ident name`, matching acorn,
so that the JavaScript accesses `node.object.name` / `node.property.name`
(which yield `undefined` unless the node is an `Identifier`) can be
modelled by `Expr.nameOf`. -/

inductive Expr where
  | numLit (n : Int)
  | strLit (s : String)
  | boolLit (b : Bool)
  | ident (name : String)
  | unary (op : String) (arg : Expr)
  | logical (op : String) (l r : Expr)
  | binary (op : String) (l r : Expr)
  | call (callee : Expr) (args : List Expr)
  | member (obj : Expr) (prop : Expr) (computed : Bool)
  | arrayLit (elems : List Expr)
  | assign (op : String) (left : Expr) (right : Expr)
  | awaitE (arg : Expr)

/-- `e.name` in JavaScript: defined only on identifiers. -/
def Expr.nameOf : Expr → Option String
  | .ident n => some n
  | _ => none

/-- `(e.name || '')`. -/
def Expr.nameOfStr (e : Expr) : String := (e.nameOf).getD ""

/-- `e.right` in JavaScript (nodes that carry a `right` child). -/
def Expr.rightOf : Expr → Option Expr
  | .binary _ _ r => some r
  | .logical _ _ r => some r
  | .assign _ _ r => some r
  | _ => none

/-- `e.type === 'Literal' && typeof e.value === 'number'`, together with
the numeric value. -/
def Expr.numLitVal : Expr → Option Int
  | .numLit n => some n
  | _ => none

/-- `e.type === 'Literal' && typeof e.value === 'string'`. -/
def Expr.isStrLit : Expr → Bool
  | .strLit _ => true
  | _ => false

/-- `e.value === true` (only literal nodes carry a `value`). -/
def Expr.literalValueIsTrue : Expr → Bool
  | .boolLit true => true
  | _ => false

/-- `String(e.value)` for a literal argument (used by `setMotorField`). -/
def Expr.literalValueString : Expr → Option String
  | .numLit n => some (toString n)
  | .strLit s => some s
  | .boolLit b => some (if b then "true" else "false")
  | _ => none

/-- Statements, mirroring the acorn statement shapes `processStatement`
inspects.  `varDecl` carries `(name, init)` per declarator.  The `Option`s
on loop/branch bodies model the JavaScript truthiness tests
`node.body && node.body.body` (a non-block body has no `.body`), and the
outer `Option` on `ifStmt`'s alternate models `node.alternate` being
present at all.  Statement kinds with no translation rule are `otherStmt`. -/
inductive Stmt where
  | exprStmt (e : Expr)
  | varDecl (decls : List (String × Option Expr))
  | forStmt (init : Option (List (String × Option Expr))) (test : Option Expr)
      (body : Option (List Stmt))
  | whileStmt (test : Expr) (body : Option (List Stmt))
  | ifStmt (test : Expr) (consequent : Option (List Stmt))
      (alternate : Option (Option (List Stmt)))
  | otherStmt

/-! ## The block graph -/

/-- A Blockly block: a type tag, named fields, the dynamic `itemCount_`
property (used by `text_join` / `lists_create_with`), named inputs each
holding at most one child block, and the `next`-connection target.  The
translator only ever builds trees, so the workspace graph is represented
structurally. -/
inductive Block where
  | mk (btype : String) (fields : List (String × String)) (itemCount : Nat)
      (inputs : List (String × Option Block)) (next : Option Block)

def Block.btype : Block → String
  | .mk t _ _ _ _ => t

def Block.fields : Block → List (String × String)
  | .mk _ f _ _ _ => f

def Block.itemCount : Block → Nat
  | .mk _ _ n _ _ => n

def Block.inputs : Block → List (String × Option Block)
  | .mk _ _ _ i _ => i

def Block.next : Block → Option Block
  | .mk _ _ _ _ n => n

/-- Ordered insert-or-overwrite for an association list (JavaScript object
property assignment keeps the original insertion position of a key). -/
def upsert (m : List (String × String)) (k v : String) : List (String × String) :=
  if m.any (fun p => p.1 == k) then
    m.map (fun p => if p.1 == k then (k, v) else p)
  else m ++ [(k, v)]

/-- `block.setFieldValue(v, name)`. -/
def Block.setField (b : Block) (name v : String) : Block :=
  match b with
  | .mk t f n i nx => .mk t (upsert f name v) n i nx

/-- `block.getFieldValue(name)`; JavaScript returns `null` for a missing
field, which stringifies to `"null"` when concatenated. -/
def Block.getField (b : Block) (name : String) : String :=
  ((b.fields.filter (fun p => p.1 == name)).head?.map (·.2)).getD "null"

/-- `block.getInputTargetBlock(name)`. -/
def Block.getInputTarget (b : Block) (name : String) : Option Block :=
  ((b.inputs.filter (fun p => p.1 == name)).head?.map (·.2)).getD none

/-- Does `block.getInput(name)` exist? -/
def Block.hasInput (b : Block) (name : String) : Bool :=
  b.inputs.any (fun p => p.1 == name)

/-- Set the target of an existing input. -/
def Block.setInputTarget (b : Block) (name : String) (c : Block) : Block :=
  match b with
  | .mk t f n i nx => .mk t f n (i.map (fun p => if p.1 == name then (p.1, some c) else p)) nx

/-- `getLastBlock` / walking `nextConnection.targetBlock()` to the tail. -/
def Block.lastOf : Block → Block
  | .mk t f ic ins none => .mk t f ic ins none
  | .mk _ _ _ _ (some nxt) => nxt.lastOf

/-- Connect `c` as the `next` block of the chain tail of `b`
(what `lastBlock.nextConnection.connect(c.previousConnection)` achieves). -/
def Block.appendToTail : Block → Block → Block
  | .mk t f ic ins none, c => .mk t f ic ins (some c)
  | .mk t f ic ins (some nxt), c => .mk t f ic ins (some (nxt.appendToTail c))

/-! ## Block shapes

The value inputs each block type owns, from the custom block definitions in
the app module (`Blockly.Blocks[...] = { init: ... appendValueInput ... }`)
and the standard Blockly block library the app loads.  `text_join` and
`lists_create_with` get their `ADDi` inputs from `updateShape_` after the
translator assigns `itemCount_`, and `controls_if` gets its `ELSE` input
from `updateShape_` after the translator assigns `elseCount_ = 1`; their
base shapes here are the inputs the translator relies on. -/

def baseInputs : String → List String
  | "math_arithmetic" => ["A", "B"]
  | "logic_operation" => ["A", "B"]
  | "logic_compare" => ["A", "B"]
  | "math_single" => ["NUM"]
  | "math_trig" => ["NUM"]
  | "math_round" => ["NUM"]
  | "logic_negate" => ["BOOL"]
  | "variables_set" => ["VALUE"]
  | "controls_for" => ["FROM", "TO", "BY", "DO"]
  | "controls_whileUntil" => ["BOOL", "DO"]
  | "controls_if" => ["IF0", "DO0"]
  | "lists_setIndex" => ["LIST", "AT", "TO"]
  | "lists_getIndex" => ["VALUE", "AT"]
  | "lists_length" => ["VALUE"]
  | "create_coordinates" => ["X", "Y", "Z", "ROLL", "PITCH", "YAW"]
  | "set_joint" => ["JOINT"]
  | "set_degrees" => ["DEGREES"]
  | "move_by" => ["AMOUNT"]
  | "move_smooth" => ["JOINT", "DURATION"]
  | "set_head_coordinates" => ["COORDS"]
  | "joints_to_coordinates" => ["JOINTS"]
  | "coordinates_to_joints" => ["COORDINATES"]
  | "get_coordinate" => ["COORDINATES"]
  | "wait" => ["TIME"]
  | "wait_ms" => ["TIME"]
  | "wait_until_stopped" => ["TIMEOUT"]
  | "joint_in_range" => ["MIN", "MAX"]
  | "log" => ["MESSAGE"]
  | "log_type" => ["MESSAGE"]
  | "alert" => ["MESSAGE"]
  | "text_print" => ["TEXT"]
  | _ => []

/-- Block types with previous/next statement connections
(`setPreviousStatement(true)` / `setNextStatement(true)` in their
definitions; the standard control/variable/list statement blocks
likewise). -/
def isStmtType (t : String) : Bool :=
  ["variables_set", "controls_if", "controls_for", "controls_whileUntil",
   "controls_repeat_ext", "controls_forEach", "controls_flow_statements",
   "lists_setIndex", "enable_torque", "disable_torque", "enable_all",
   "disable_all", "check_joints", "reboot_joint", "reboot_all", "set_joint",
   "set_degrees", "move_by", "move_smooth", "set_head_coordinates", "wait",
   "wait_ms", "wait_until_stopped", "reset_timer", "log", "log_joint",
   "log_type", "alert", "text_print"].contains t

/-- Block types with an output connection (`setOutput(true, ...)`;
the standard value blocks likewise). -/
def hasOutputConn (t : String) : Bool :=
  ["math_number", "text", "logic_boolean", "logic_null", "variables_get",
   "math_arithmetic", "math_single", "math_trig", "math_round",
   "math_constant", "math_modulo", "math_constrain", "math_random_int",
   "math_random_float", "math_atan2", "logic_negate", "logic_operation",
   "logic_compare", "text_join", "lists_create_with", "lists_getIndex",
   "lists_length", "create_coordinates", "get_time", "timer_value",
   "get_joint", "get_degrees", "get_head_coordinates",
   "joints_to_coordinates", "coordinates_to_joints", "get_coordinate",
   "is_moving", "get_load", "get_temperature", "ping_joint",
   "joint_in_range"].contains t

/-- `workspace.newBlock(t)`: a fresh block of type `t` with its inputs
unconnected. -/
def newBlock (t : String) : Block :=
  .mk t [] 0 ((baseInputs t).map (fun n => (n, (none : Option Block)))) none

/-- `block.itemCount_ = n; block.updateShape_();` for the variadic blocks
(`text_join`, `lists_create_with`): the inputs become `ADD0 .. ADD(n-1)`. -/
def setItemCount (b : Block) (n : Nat) : Block :=
  match b with
  | .mk t f _ _ nx =>
      .mk t f n ((List.range n).map (fun i => ("ADD" ++ toString i, (none : Option Block)))) nx

/-- `block.elseCount_ = 1; block.updateShape_();` on `controls_if`:
appends the `ELSE` statement input. -/
def addElseInput (b : Block) : Block :=
  match b with
  | .mk t f n i nx => .mk t f n (i ++ [("ELSE", (none : Option Block))]) nx

/-- `connectValue(block, inputName, valueBlock)`: connects only when the
input exists and the child has an output connection. -/
def connectValue (b : Block) (name : String) (vb : Block) : Block :=
  if b.hasInput name && hasOutputConn vb.btype then b.setInputTarget name vb else b

/-- Attaching a statement chain to a statement input
(`block.getInput(name).connection.connect(head.previousConnection)`). -/
def connectStmtInput (b : Block) (name : String) (c : Block) : Block :=
  b.setInputTarget name c

/-! ## Variables

`workspace.createVariable(name)` returns the existing variable with that
name or creates a new one; its opaque id is modelled by the name itself,
so the registry is a list of `(id, name)` pairs with `id = name`. -/

abbrev TrVars := List (String × String)

def createVariable (vars : TrVars) (name : String) : TrVars :=
  if vars.any (fun p => p.1 == name) then vars else vars ++ [(name, name)]

/-! ## `await` stripping

`jsCode.replace(/\bawait\s+/g, '')`: every occurrence of the word `await`
at a word boundary that is followed by at least one whitespace character is
deleted together with the whole whitespace run, anywhere in the raw source
text (string literals included). -/

/-- JavaScript `\w`. -/
def isWordCharJS (c : Char) : Bool :=
  (('a' ≤ c && c ≤ 'z') || ('A' ≤ c && c ≤ 'Z') || ('0' ≤ c && c ≤ '9') || c == '_')

/-- JavaScript `\s` (the ASCII part; the sources contain no exotic spaces). -/
def isSpaceJS (c : Char) : Bool :=
  (c == ' ' || c == '\t' || c == '\n' || c == '\r' || c == '\x0b' || c == '\x0c')

theorem length_dropWhile_le_len {α : Type} (p : α → Bool) (l : List α) :
    (l.dropWhile p).length ≤ l.length := by
  induction l with
  | nil => simp [List.dropWhile]
  | cons a l ih =>
      simp only [List.dropWhile]
      cases p a
      · simp
      · simpa using Nat.le_succ_of_le ih

/-- Left-to-right scan of `replace(/\bawait\s+/g, '')`; the flag records
whether the previous character was a word character (for `\b`).  The fuel
only needs to cover the input length (each step consumes at least one
character); `stripAwait` supplies it. -/
def stripAwaitAux (fuel : Nat) (prevWord : Bool) (cs : List Char) : List Char :=
  match fuel with
  | 0 => cs
  | f + 1 =>
    match cs with
    | 'a' :: 'w' :: 'a' :: 'i' :: 't' :: c :: rest =>
        if !prevWord && isSpaceJS c then
          stripAwaitAux f false (rest.dropWhile isSpaceJS)
        else
          'a' :: stripAwaitAux f true ('w' :: 'a' :: 'i' :: 't' :: c :: rest)
    | c :: rest => c :: stripAwaitAux f (isWordCharJS c) rest
    | [] => []

def stripAwait (s : String) : String :=
  ⟨stripAwaitAux (s.toList.length + 1) false s.toList⟩

/-! ## Idiom recognition used by the expression translator -/

/-- `e.type === 'MemberExpression' && e.object.name === 'Math'
&& e.property.name === 'PI'` (the source does not test `computed`). -/
def isMathPI : Expr → Bool
  | .member o p _ => o.nameOf == some "Math" && p.nameOf == some "PI"
  | _ => false

/-- The forward degrees-to-radians idiom check on a trig call argument:
for `(inner * Math.PI) / 180` returns `inner`, otherwise the argument
itself (`angleExpr` in the source). -/
def degAngleOf (arg : Expr) : Expr :=
  match arg with
  | .binary "/" l r =>
      match l, r with
      | .binary "*" ll lr, .numLit 180 => if isMathPI lr then ll else arg
      | _, _ => arg
  | _ => arg

def inverseTrigOp : String → Option String
  | "asin" => some "ASIN"
  | "acos" => some "ACOS"
  | "atan" => some "ATAN"
  | _ => none

/-- The inverse-trig radians-to-degrees idiom on a binary node:
`Math.asin(x) * 180 / Math.PI` (and acos/atan) yields the trig `OP`
and the argument `x`. -/
def matchInvTrig (e : Expr) : Option (String × Expr) :=
  match e with
  | .binary "/" l r =>
      if isMathPI r then
        match l with
        | .binary "*" ll (.numLit 180) =>
            match ll with
            | .call (.member o p _) (x :: _) =>
                if o.nameOf == some "Math" then
                  match p.nameOf with
                  | some fn =>
                      match inverseTrigOp fn with
                      | some op => some (op, x)
                      | none => none
                  | none => none
                else none
            | _ => none
        | _ => none
      else none
  | _ => none

def trigOp : String → Option String
  | "sin" => some "SIN"
  | "cos" => some "COS"
  | "tan" => some "TAN"
  | "asin" => some "ASIN"
  | "acos" => some "ACOS"
  | "atan" => some "ATAN"
  | _ => none

def roundOp : String → Option String
  | "floor" => some "ROUNDDOWN"
  | "ceil" => some "ROUNDUP"
  | "round" => some "ROUND"
  | _ => none

def singleOp : String → Option String
  | "abs" => some "ABS"
  | "sqrt" => some "ROOT"
  | _ => none

def compoundAssignOp : String → Option String
  | "+=" => some "ADD"
  | "-=" => some "MINUS"
  | "*=" => some "MULTIPLY"
  | "/=" => some "DIVIDE"
  | "%=" => some "MODULO"
  | _ => none

def comparisonOps : List String := ["==", "===", "!=", "!==", "<", "<=", ">", ">="]

def arithmeticOps : List String := ["+", "-", "*", "/", "%"]

/-- The shared `opMap` of the binary-expression branch. -/
def opMapJS : String → String
  | "==" => "EQ"
  | "===" => "EQ"
  | "!=" => "NEQ"
  | "!==" => "NEQ"
  | "<" => "LT"
  | "<=" => "LTE"
  | ">" => "GT"
  | ">=" => "GTE"
  | "+" => "ADD"
  | "-" => "MINUS"
  | "*" => "MULTIPLY"
  | "/" => "DIVIDE"
  | "%" => "MODULO"
  | _ => "undefined"

def getCalleeName : Expr → String
  | .ident n => n
  | .member o p _ => o.nameOfStr ++ "." ++ p.nameOfStr
  | _ => ""

/-- `setMotorField(block, arg)`: sets the `MOTOR` field when the argument
is a literal. -/
def setMotorField (b : Block) (arg : Expr) : Block :=
  match arg.literalValueString with
  | some v => b.setField "MOTOR" v
  | none => b

/-- `flattenStringConcat(node)`: flattens a chained `+` expression into
its non-`+` operands, left to right. -/
def flattenStringConcat : Expr → List Expr
  | .binary "+" l r => flattenStringConcat l ++ flattenStringConcat r
  | e => [e]

/-! ## Chain linking

The body-translation loops keep the first translated chain
(`firstBodyBlock`) and link each next chain to the tail of the previous
one when that tail has a next connection.  A failed link orphans the chain
(it still exists in the workspace but is no longer part of the attached
sequence), and later chains then link to the orphan's tail, never back to
the attached chain.  Blockly's behaviour of throwing when `connect` is
handed a `null` previous connection is modelled as the link simply not
happening (the translator never produces that situation for the supported
statement forms). -/

structure ChainSt where
  head : Option Block
  prevTailNext : Bool
  attached : Bool

def chainInit : ChainSt := ⟨none, false, true⟩

def chainStep (st : ChainSt) (b : Block) : ChainSt :=
  let tn := isStmtType (b.lastOf).btype
  match st.head with
  | none => ⟨some b, tn, true⟩
  | some h =>
      if st.prevTailNext && isStmtType b.btype then
        if st.attached then ⟨some (h.appendToTail b), tn, true⟩
        else ⟨some h, tn, false⟩
      else ⟨some h, tn, false⟩

/-! ## The translator (`processExpression` / `processCall` /
`processStatement`)

Recursion is by fuel (the source recurses on the AST structure); at fuel
`0` the functions return `none`, which never happens for fuel at least the
AST depth.  The variable registry is threaded in source order. -/

mutual

/-- `processExpression(node, asStatement)`. -/
def processExpression (fuel : Nat) (vars : TrVars) (node : Expr)
    (asStatement : Bool) : TrVars × Option Block :=
  match fuel with
  | 0 => (vars, none)
  | f + 1 =>
    match node with
    | .awaitE arg => processExpression f vars arg asStatement
    | .assign aop left right =>
        match left with
        | .member mobj mprop true =>
            let b := ((newBlock "lists_setIndex").setField "MODE" "SET").setField
              "WHERE" "FROM_START"
            let (vars, listBlock?) := processExpression f vars mobj false
            let b := match listBlock? with
              | some lb => connectValue b "LIST" lb
              | none => b
            let (vars, b) :=
              match mprop.numLitVal with
              | some k =>
                  (vars, connectValue b "AT"
                    ((newBlock "math_number").setField "NUM" (toString (k + 1))))
              | none =>
                  let (vars, indexBlock?) := processExpression f vars mprop false
                  match indexBlock? with
                  | some ib =>
                      let addBlock := (newBlock "math_arithmetic").setField "OP" "ADD"
                      let addBlock := connectValue addBlock "A" ib
                      let oneBlock := (newBlock "math_number").setField "NUM" "1"
                      let addBlock := connectValue addBlock "B" oneBlock
                      (vars, connectValue b "AT" addBlock)
                  | none => (vars, b)
            let (vars, valueBlock?) := processExpression f vars right false
            let b := match valueBlock? with
              | some vb => connectValue b "TO" vb
              | none => b
            (vars, some b)
        | _ =>
            let varName := left.nameOf.getD "undefined"
            match compoundAssignOp aop with
            | some op =>
                let vars := createVariable vars varName
                let b := (newBlock "variables_set").setField "VAR" varName
                let mathBlock := (newBlock "math_arithmetic").setField "OP" op
                let vars := createVariable vars varName
                let varBlock := (newBlock "variables_get").setField "VAR" varName
                let mathBlock := connectValue mathBlock "A" varBlock
                let (vars, rightBlock?) := processExpression f vars right false
                let mathBlock := match rightBlock? with
                  | some rb => connectValue mathBlock "B" rb
                  | none => mathBlock
                let b := connectValue b "VALUE" mathBlock
                (vars, some b)
            | none =>
                let vars := createVariable vars varName
                let b := (newBlock "variables_set").setField "VAR" varName
                let (vars, valueBlock?) := processExpression f vars right false
                let b := match valueBlock? with
                  | some vb => connectValue b "VALUE" vb
                  | none => b
                (vars, some b)
    | .call callee args =>
        let isMathCallee := match callee with
          | .member cobj _ _ => cobj.nameOf == some "Math"
          | _ => false
        let mathFunc : Option String := match callee with
          | .member _ cprop _ => cprop.nameOf
          | _ => none
        if isMathCallee then
          match mathFunc.bind trigOp, args with
          | some op, arg :: _ =>
              let b := (newBlock "math_trig").setField "OP" op
              let angleExpr := degAngleOf arg
              let (vars, ab?) := processExpression f vars angleExpr false
              let b := match ab? with
                | some a => connectValue b "NUM" a
                | none => b
              (vars, some b)
          | _, _ =>
            match mathFunc.bind roundOp, args with
            | some op, arg :: _ =>
                let b := (newBlock "math_round").setField "OP" op
                let (vars, ab?) := processExpression f vars arg false
                let b := match ab? with
                  | some a => connectValue b "NUM" a
                  | none => b
                (vars, some b)
            | _, _ =>
              match mathFunc.bind singleOp, args with
              | some op, arg :: _ =>
                  let b := (newBlock "math_single").setField "OP" op
                  let (vars, ab?) := processExpression f vars arg false
                  let b := match ab? with
                    | some a => connectValue b "NUM" a
                    | none => b
                  (vars, some b)
              | _, _ => processCallTail f vars callee args asStatement
        else processCallTail f vars callee args asStatement
    | .numLit n => (vars, some ((newBlock "math_number").setField "NUM" (toString n)))
    | .strLit s => (vars, some ((newBlock "text").setField "TEXT" s))
    | .boolLit bv =>
        (vars, some ((newBlock "logic_boolean").setField "BOOL"
          (if bv then "TRUE" else "FALSE")))
    | .unary uop arg =>
        if uop == "-" then
          let b := (newBlock "math_single").setField "OP" "NEG"
          let (vars, ab?) := processExpression f vars arg false
          let b := match ab? with
            | some a => connectValue b "NUM" a
            | none => b
          (vars, some b)
        else if uop == "!" then
          let b := newBlock "logic_negate"
          let (vars, ab?) := processExpression f vars arg false
          let b := match ab? with
            | some a => connectValue b "BOOL" a
            | none => b
          (vars, some b)
        else (vars, none)
    | .logical lop l r =>
        let b := (newBlock "logic_operation").setField "OP"
          (if lop == "&&" then "AND" else "OR")
        let (vars, lb?) := processExpression f vars l false
        let (vars, rb?) := processExpression f vars r false
        let b := match lb? with
          | some x => connectValue b "A" x
          | none => b
        let b := match rb? with
          | some x => connectValue b "B" x
          | none => b
        (vars, some b)
    | .binary bop l r =>
        match matchInvTrig (.binary bop l r) with
        | some (op, x) =>
            let b := (newBlock "math_trig").setField "OP" op
            let (vars, ab?) := processExpression f vars x false
            let b := match ab? with
              | some a => connectValue b "NUM" a
              | none => b
            (vars, some b)
        | none =>
          if comparisonOps.contains bop then
            let b := (newBlock "logic_compare").setField "OP" (opMapJS bop)
            let (vars, lb?) := processExpression f vars l false
            let (vars, rb?) := processExpression f vars r false
            let b := match lb? with
              | some x => connectValue b "A" x
              | none => b
            let b := match rb? with
              | some x => connectValue b "B" x
              | none => b
            (vars, some b)
          else if bop == "+"
              && (flattenStringConcat (.binary bop l r)).any Expr.isStrLit then
            let parts := flattenStringConcat (.binary bop l r)
            let b := setItemCount (newBlock "text_join") parts.length
            let (vars, b) := connectParts f vars b 0 parts
            (vars, some b)
          else if arithmeticOps.contains bop then
            let b := (newBlock "math_arithmetic").setField "OP" (opMapJS bop)
            let (vars, lb?) := processExpression f vars l false
            let (vars, rb?) := processExpression f vars r false
            let b := match lb? with
              | some x => connectValue b "A" x
              | none => b
            let b := match rb? with
              | some x => connectValue b "B" x
              | none => b
            (vars, some b)
          else (vars, none)
    | .ident name =>
        let vars := createVariable vars name
        (vars, some ((newBlock "variables_get").setField "VAR" name))
    | .member mobj mprop computed =>
        if !computed && mobj.nameOf == some "Math" && mprop.nameOf == some "PI" then
          (vars, some ((newBlock "math_constant").setField "CONSTANT" "PI"))
        else if !computed && mprop.nameOf == some "length" then
          let b := newBlock "lists_length"
          let (vars, lb?) := processExpression f vars mobj false
          let b := match lb? with
            | some x => connectValue b "VALUE" x
            | none => b
          (vars, some b)
        else if computed then
          let b := ((newBlock "lists_getIndex").setField "MODE" "GET").setField
            "WHERE" "FROM_START"
          let (vars, lb?) := processExpression f vars mobj false
          let b := match lb? with
            | some x => connectValue b "VALUE" x
            | none => b
          let (vars, b) :=
            match mprop.numLitVal with
            | some k =>
                (vars, connectValue b "AT"
                  ((newBlock "math_number").setField "NUM" (toString (k + 1))))
            | none =>
                let (vars, indexBlock?) := processExpression f vars mprop false
                match indexBlock? with
                | some ib =>
                    let addBlock := (newBlock "math_arithmetic").setField "OP" "ADD"
                    let addBlock := connectValue addBlock "A" ib
                    let oneBlock := (newBlock "math_number").setField "NUM" "1"
                    let addBlock := connectValue addBlock "B" oneBlock
                    (vars, connectValue b "AT" addBlock)
                | none => (vars, b)
          (vars, some b)
        else (vars, none)
    | .arrayLit elems =>
        if elems.length == 6 then
          let b := newBlock "create_coordinates"
          let (vars, b) := connectFields f vars b ["X", "Y", "Z", "ROLL", "PITCH", "YAW"] elems
          (vars, some b)
        else
          let b := setItemCount (newBlock "lists_create_with") elems.length
          let (vars, b) := connectParts f vars b 0 elems
          (vars, some b)

/-- The tail of the call-expression branch: `Date.now()` then
`processCall`. -/
def processCallTail (fuel : Nat) (vars : TrVars) (callee : Expr)
    (args : List Expr) (asStatement : Bool) : TrVars × Option Block :=
  match fuel with
  | 0 => (vars, none)
  | f + 1 =>
    let isDateNow :=
      (match callee with
       | .member o p _ => o.nameOf == some "Date" && p.nameOf == some "now"
       | _ => false) && args.length == 0
    if isDateNow then (vars, some (newBlock "get_time"))
    else processCall f vars callee args asStatement

/-- `processCall(node, asStatement)`: the domain function table. -/
def processCall (fuel : Nat) (vars : TrVars) (calleeE : Expr)
    (args : List Expr) (_asStatement : Bool) : TrVars × Option Block :=
  match fuel with
  | 0 => (vars, none)
  | f + 1 =>
    match getCalleeName calleeE, args with
    | "Robot.setPositionLimited", a0 :: a1 :: _ =>
        let b := setMotorField (newBlock "set_joint") a0
        let (vars, pb?) := processExpression f vars a1 false
        let b := match pb? with
          | some x => connectValue b "JOINT" x
          | none => b
        (vars, some b)
    | "Robot.getPosition", a0 :: _ =>
        (vars, some (setMotorField (newBlock "get_joint") a0))
    | "Robot.setTorque", a0 :: a1 :: _ =>
        let enable := a1.literalValueIsTrue
        (vars, some (setMotorField
          (newBlock (if enable then "enable_torque" else "disable_torque")) a0))
    | "Robot.setTorqueMultiple", _ :: a1 :: _ =>
        let enable := a1.literalValueIsTrue
        (vars, some (newBlock (if enable then "enable_all" else "disable_all")))
    | "logConsole", args =>
        let b := newBlock "log"
        let (vars, b) := match args with
          | a0 :: _ =>
              let (vars, mb?) := processExpression f vars a0 false
              (vars, match mb? with
                | some x => connectValue b "MESSAGE" x
                | none => b)
          | [] => (vars, b)
        (vars, some b)
    | "alert", args =>
        let b := newBlock "alert"
        let (vars, b) := match args with
          | a0 :: _ =>
              let (vars, mb?) := processExpression f vars a0 false
              (vars, match mb? with
                | some x => connectValue b "MESSAGE" x
                | none => b)
          | [] => (vars, b)
        (vars, some b)
    | "sleep", args =>
        let b := newBlock "wait_ms"
        let (vars, b) := match args with
          | a0 :: _ =>
              let (vars, tb?) := processExpression f vars a0 false
              (vars, match tb? with
                | some x => connectValue b "TIME" x
                | none => b)
          | [] => (vars, b)
        (vars, some b)
    | "wait", args =>
        let b := newBlock "wait"
        let (vars, b) := match args with
          | a0 :: _ =>
              let (vars, tb?) := processExpression f vars a0 false
              (vars, match tb? with
                | some x => connectValue b "TIME" x
                | none => b)
          | [] => (vars, b)
        (vars, some b)
    | "Robot.moveSmooth", a0 :: a1 :: a2 :: _ =>
        let b := setMotorField (newBlock "move_smooth") a0
        let (vars, pb?) := processExpression f vars a1 false
        let b := match pb? with
          | some x => connectValue b "JOINT" x
          | none => b
        let (vars, db?) := processExpression f vars a2 false
        let b := match db? with
          | some x => connectValue b "DURATION" x
          | none => b
        (vars, some b)
    | "Robot.checkAllMotors", _ => (vars, some (newBlock "check_joints"))
    | "Robot.setDegrees", a0 :: a1 :: _ =>
        let b := setMotorField (newBlock "set_degrees") a0
        let (vars, db?) := processExpression f vars a1 false
        let b := match db? with
          | some x => connectValue b "DEGREES" x
          | none => b
        (vars, some b)
    | "Robot.getDegrees", a0 :: _ =>
        (vars, some (setMotorField (newBlock "get_degrees") a0))
    | "Robot.setHeadCoordinates", a0 :: _ =>
        let b := newBlock "set_head_coordinates"
        let (vars, lb?) := processExpression f vars a0 false
        let b := match lb? with
          | some x => connectValue b "COORDS" x
          | none => b
        (vars, some b)
    | "Robot.getHeadCoordinates", _ =>
        (vars, some (newBlock "get_head_coordinates"))
    | "Robot.setAllPositions", a0 :: _ =>
        let b := newBlock "set_head_coordinates"
        let (vars, lb?) := processExpression f vars a0 false
        let b := match lb? with
          | some x => connectValue b "COORDS" x
          | none => b
        (vars, some b)
    | "Robot.jointsToCoordinates", a0 :: _ =>
        let b := newBlock "joints_to_coordinates"
        let (vars, lb?) := processExpression f vars a0 false
        let b := match lb? with
          | some x => connectValue b "JOINTS" x
          | none => b
        (vars, some b)
    | "Robot.coordinatesToJoints", a0 :: _ =>
        let b := newBlock "coordinates_to_joints"
        let (vars, lb?) := processExpression f vars a0 false
        let b := match lb? with
          | some x => connectValue b "COORDINATES" x
          | none => b
        (vars, some b)
    | "Robot.isMoving", a0 :: _ =>
        (vars, some (setMotorField (newBlock "is_moving") a0))
    | "Robot.getLoad", a0 :: _ =>
        (vars, some (setMotorField (newBlock "get_load") a0))
    | "Robot.getTemperature", a0 :: _ =>
        (vars, some (setMotorField (newBlock "get_temperature") a0))
    | "logJoint", a0 :: _ =>
        (vars, some (setMotorField (newBlock "log_joint") a0))
    | "Robot.ping", a0 :: _ =>
        (vars, some (setMotorField (newBlock "ping_joint") a0))
    | "Robot.reboot", a0 :: _ =>
        (vars, some (setMotorField (newBlock "reboot_joint") a0))
    | "Robot.rebootAll", _ => (vars, some (newBlock "reboot_all"))
    | _, _ => (vars, none)

/-- The indexed connection loop of `text_join` / `lists_create_with`
(`connectValue(block, 'ADD' + i, processExpression(parts[i]))`). -/
def connectParts (fuel : Nat) (vars : TrVars) (b : Block) (i : Nat)
    (parts : List Expr) : TrVars × Block :=
  match fuel with
  | 0 => (vars, b)
  | f + 1 =>
    match parts with
    | [] => (vars, b)
    | p :: rest =>
        let (vars, pb?) := processExpression f vars p false
        let b := match pb? with
          | some pb => connectValue b ("ADD" ++ toString i) pb
          | none => b
        connectParts f vars b (i + 1) rest

/-- The named connection loop of `create_coordinates`
(fieldNames zipped with the array elements). -/
def connectFields (fuel : Nat) (vars : TrVars) (b : Block)
    (names : List String) (elems : List Expr) : TrVars × Block :=
  match fuel with
  | 0 => (vars, b)
  | f + 1 =>
    match names, elems with
    | nm :: nms, e :: es =>
        let (vars, eb?) := processExpression f vars e false
        let b := match eb? with
          | some x => connectValue b nm x
          | none => b
        connectFields f vars b nms es
    | _, _ => (vars, b)

/-- One nested-body translation loop (for/while bodies, if branches). -/
def translateBodyAux (fuel : Nat) (vars : TrVars) (stmts : List Stmt)
    (st : ChainSt) : TrVars × ChainSt :=
  match fuel with
  | 0 => (vars, st)
  | f + 1 =>
    match stmts with
    | [] => (vars, st)
    | s :: rest =>
        let (vars, b?) := processStatement f vars s
        let st := match b? with
          | some b => chainStep st b
          | none => st
        translateBodyAux f vars rest st

/-- The chained `variables_set` loop of a variable declaration. -/
def varDeclChain (fuel : Nat) (vars : TrVars)
    (decls : List (String × Option Expr)) : TrVars × Option Block :=
  match fuel with
  | 0 => (vars, none)
  | f + 1 =>
    match decls with
    | [] => (vars, none)
    | (name, init?) :: rest =>
        let vars := createVariable vars name
        let b := (newBlock "variables_set").setField "VAR" name
        let (vars, b) := match init? with
          | some e =>
              let (vars, vb?) := processExpression f vars e false
              (vars, match vb? with
                | some vb => connectValue b "VALUE" vb
                | none => b)
          | none => (vars, b)
        let (vars, rest?) := varDeclChain f vars rest
        (vars, some (match rest? with
          | some r => b.appendToTail r
          | none => b))

/-- `processStatement(node)`. -/
def processStatement (fuel : Nat) (vars : TrVars) (stmt : Stmt) :
    TrVars × Option Block :=
  match fuel with
  | 0 => (vars, none)
  | f + 1 =>
    match stmt with
    | .exprStmt e => processExpression f vars e true
    | .varDecl decls => varDeclChain f vars decls
    | .forStmt init test body =>
        let b := newBlock "controls_for"
        let (vars, b) := match init with
          | some ((varName, fromVal?) :: _) =>
              let vars := createVariable vars varName
              let b := b.setField "VAR" varName
              (match fromVal? with
               | some fv =>
                   let (vars, fb?) := processExpression f vars fv false
                   (vars, match fb? with
                     | some x => connectValue b "FROM" x
                     | none => b)
               | none => (vars, b))
          | _ => (vars, b)
        let (vars, b) := match test.bind Expr.rightOf with
          | some r =>
              let (vars, tb?) := processExpression f vars r false
              (vars, match tb? with
                | some x => connectValue b "TO" x
                | none => b)
          | none => (vars, b)
        let b := connectValue b "BY" ((newBlock "math_number").setField "NUM" "1")
        let (vars, b) := match body with
          | some stmts =>
              let (vars, stres) := translateBodyAux f vars stmts chainInit
              (vars, match stres.head with
                | some h => connectStmtInput b "DO" h
                | none => b)
          | none => (vars, b)
        (vars, some b)
    | .whileStmt test body =>
        let b := newBlock "controls_whileUntil"
        let (vars, cb?) := processExpression f vars test false
        let b := match cb? with
          | some x => connectValue b "BOOL" x
          | none => b
        let (vars, b) := match body with
          | some stmts =>
              let (vars, stres) := translateBodyAux f vars stmts chainInit
              (vars, match stres.head with
                | some h => connectStmtInput b "DO" h
                | none => b)
          | none => (vars, b)
        (vars, some b)
    | .ifStmt test consequent alternate =>
        let b := newBlock "controls_if"
        let b := match alternate with
          | some _ => addElseInput b
          | none => b
        let (vars, cb?) := processExpression f vars test false
        let b := match cb? with
          | some x => connectValue b "IF0" x
          | none => b
        let (vars, b) := match consequent with
          | some stmts =>
              let (vars, stres) := translateBodyAux f vars stmts chainInit
              (vars, match stres.head with
                | some h => connectStmtInput b "DO0" h
                | none => b)
          | none => (vars, b)
        let (vars, b) := match alternate with
          | some (some stmts) =>
              let (vars, stres) := translateBodyAux f vars stmts chainInit
              (vars, match stres.head with
                | some h => connectStmtInput b "ELSE" h
                | none => b)
          | _ => (vars, b)
        (vars, some b)
    | .otherStmt => (vars, none)

end

/-! ## The text-to-graph entry point (`jsToBlocks`) -/

/-- The caller-owned workspace: its top-level blocks in document order and
its variable map (`id → name`; ids are modelled by names). -/
structure Workspace where
  topBlocks : List Block
  varMap : List (String × String)

/-- The result object of `jsToBlocks`
(`{ success: true }` / `{ success: false, error: e.message }`). -/
structure JsToBlocksResult where
  success : Bool
  error : Option String

/-- One step of the top-level statement loop: append the translated chain
to the previous chain when the previous tail has a next connection and the
new head has a previous connection, otherwise position it as a new root
block (`block.moveBy(50, yPos)`; the pixel layout is not modelled). -/
def topStep (tops : List Block) (b : Block) : List Block :=
  match tops.getLast? with
  | none => [b]
  | some h =>
      if isStmtType (h.lastOf).btype && isStmtType b.btype then
        tops.dropLast ++ [h.appendToTail b]
      else tops ++ [b]

def jsToBlocksLoop (fuel : Nat) (vars : TrVars) (body : List Stmt)
    (tops : List Block) : TrVars × List Block :=
  match fuel with
  | 0 => (vars, tops)
  | f + 1 =>
    match body with
    | [] => (vars, tops)
    | s :: rest =>
        let (vars, b?) := processStatement f vars s
        let tops := match b? with
          | some b => topStep tops b
          | none => tops
        jsToBlocksLoop f vars rest tops

/-- `jsToBlocks(jsCode)`: strips `await`, parses, and appends the
translated top-level chains to the workspace.  The parser is the external
acorn library, passed in as a function; a parse exception is the
`Except.error` case.  On failure the workspace is returned untouched (the
parse happens before any block or variable is created). -/
def jsToBlocks (parse : String → Except String (List Stmt)) (fuel : Nat)
    (src : String) (ws : Workspace) : JsToBlocksResult × Workspace :=
  let jsCode := stripAwait src
  match parse jsCode with
  | .error msg => (⟨false, some msg⟩, ws)
  | .ok body =>
      let (vars, tops) := jsToBlocksLoop fuel ws.varMap body []
      (⟨true, none⟩, ⟨ws.topBlocks ++ tops, vars⟩)

/-! ## The Python generator (Backend B)

Embeds the `Blockly.Python` generator module: the operator-precedence
constants, the per-invocation generator context (`definitions_`,
`functionNames_`, `nameDB_`), the engine helpers (`valueToCode`,
`statementToCode`, `prefixLines`, `blockToCode`, `scrub_`, `quote_`,
`init`, `finish`, `workspaceToCode`) and the full `forBlock` rule table. -/

def ORDER_ATOMIC : Nat := 0
def ORDER_COLLECTION : Nat := 1
def ORDER_STRING_CONVERSION : Nat := 1
def ORDER_MEMBER : Nat := 2
def ORDER_FUNCTION_CALL : Nat := 2
def ORDER_EXPONENTIATION : Nat := 3
def ORDER_UNARY_SIGN : Nat := 4
def ORDER_BITWISE_NOT : Nat := 4
def ORDER_MULTIPLICATIVE : Nat := 5
def ORDER_ADDITIVE : Nat := 6
def ORDER_BITWISE_SHIFT : Nat := 7
def ORDER_BITWISE_AND : Nat := 8
def ORDER_BITWISE_XOR : Nat := 9
def ORDER_BITWISE_OR : Nat := 10
def ORDER_RELATIONAL : Nat := 11
def ORDER_LOGICAL_NOT : Nat := 12
def ORDER_LOGICAL_AND : Nat := 13
def ORDER_LOGICAL_OR : Nat := 14
def ORDER_CONDITIONAL : Nat := 15
def ORDER_LAMBDA : Nat := 16
def ORDER_NONE : Nat := 99

def pyINDENT : String := "    "

def pyPASS : String := "    pass\n"

/-- `Blockly.Python.RESERVED_WORDS_`. -/
def pyReservedWords : List String :=
  ["False", "None", "True", "and", "as", "assert", "break", "class",
   "continue", "def", "del", "elif", "else", "except", "finally", "for",
   "from", "global", "if", "import", "in", "is", "lambda", "nonlocal",
   "not", "or", "pass", "raise", "return", "try", "while", "with", "yield"]

/-- Modelled from the spec: `Blockly.Names`, the external reserved-word-aware
name table of the generator engine ("a reserved-word-aware name table for
identifier sanitization, assigning a strictly 1:1 stable per-compilation
alias").  It maps variable ids to their requested names (`setVariableMap`)
and records the assigned aliases; `reset` clears both.  The reserved-word
list is the one the module constructs it with (`RESERVED_WORDS_`). -/
structure NameDB where
  varMap : List (String × String)
  db : List (String × String)

def NameDB.fresh : NameDB := ⟨[], []⟩

def NameDB.reset (_ : NameDB) : NameDB := ⟨[], []⟩

def nameFree (used : List String) (n : String) : Bool :=
  !(pyReservedWords.contains n || used.contains n)

def candidateName (base : String) (i : Nat) : String :=
  if i == 0 then base else base ++ toString (i + 1)

/-- The smallest numeric-suffix variant of `base` that avoids the reserved
words and the already-assigned aliases. -/
def distinctName (used : List String) (base : String) : String :=
  match (List.range (used.length + pyReservedWords.length + 2)).find?
      (fun i => nameFree used (candidateName base i)) with
  | some i => candidateName base i
  | none => base

/-- `nameDB_.getName(id, category)`: the stable alias for a variable id. -/
def NameDB.getName (ndb : NameDB) (id : String) : NameDB × String :=
  match (ndb.db.filter (fun p => p.1 == id)).head? with
  | some p => (ndb, p.2)
  | none =>
      let requested := ((ndb.varMap.filter (fun p => p.1 == id)).head?.map (·.2)).getD id
      let n := distinctName (ndb.db.map (·.2)) requested
      (⟨ndb.varMap, ndb.db ++ [(id, n)]⟩, n)

/-- `nameDB_.getDistinctName(base, category)`: a fresh alias every call. -/
def NameDB.getDistinctName (ndb : NameDB) (base : String) : NameDB × String :=
  let n := distinctName (ndb.db.map (·.2)) base
  (⟨ndb.varMap, ndb.db ++ [("distinct." ++ toString ndb.db.length, n)]⟩, n)

/-- `nameDB_.populateVariables(workspace)`: precompute the alias of every
workspace variable. -/
def NameDB.populate (ndb : NameDB) (ids : List String) : NameDB :=
  ids.foldl (fun ndb id => (ndb.getName id).1) ndb

/-- The Generator Context: `Blockly.Python.definitions_`,
`Blockly.Python.functionNames_` and `Blockly.Python.nameDB_` (the latter
is `null` before the first `init`). -/
structure PyState where
  definitions : List (String × String)
  functionNames : List (String × String)
  nameDB : Option NameDB

/-- `Blockly.Python.init(workspace)`: fresh `definitions_` and
`functionNames_` maps, a new-or-reset name table, then `setVariableMap` /
`populateVariables` (the workspaces of this app contain no procedures, so
`populateProcedures` adds nothing). -/
def pyInit (s : PyState) (ws : Workspace) : PyState :=
  let ndb := match s.nameDB with
    | none => NameDB.fresh
    | some d => d.reset
  let ndb : NameDB := ⟨ws.varMap, ndb.db⟩
  let ndb := ndb.populate (ws.varMap.map (·.1))
  ⟨[], [], some ndb⟩

abbrev GenM (α : Type) := StateT PyState (Except String) α

/-- `Blockly.Python.definitions_[k] = v`. -/
def addDefinition (k v : String) : GenM Unit :=
  modify fun s => ⟨upsert s.definitions k v, s.functionNames, s.nameDB⟩

def genGetName (id : String) : GenM String :=
  modifyGet fun s =>
    let ndb := s.nameDB.getD NameDB.fresh
    let (ndb, n) := ndb.getName id
    (n, ⟨s.definitions, s.functionNames, some ndb⟩)

def genGetDistinctName (base : String) : GenM String :=
  modifyGet fun s =>
    let ndb := s.nameDB.getD NameDB.fresh
    let (ndb, n) := ndb.getDistinctName base
    (n, ⟨s.definitions, s.functionNames, some ndb⟩)

/-- `Blockly.Python.quote_`: double backslashes, turn newlines into
backslash-newline continuations, wrap in double quotes. -/
def pyQuoteChar (c : Char) : List Char :=
  if c == '\\' then ['\\', '\\']
  else if c == '\n' then ['\\', '\n']
  else [c]

def pyQuote (s : String) : String :=
  "\"" ++ String.mk ((s.toList.map pyQuoteChar).flatten) ++ "\""

/-- `text.replace(/\n(.)/g, '\n' + pre + '$1')`: insert the prefix after
every newline that is followed by a non-newline character. -/
def pyIndentAux (pre : List Char) : List Char → List Char
  | [] => []
  | '\n' :: c :: rest =>
      if c == '\n' then '\n' :: pyIndentAux pre (c :: rest)
      else '\n' :: (pre ++ c :: pyIndentAux pre rest)
  | c :: rest => c :: pyIndentAux pre rest

/-- `Blockly.Python.prefixLines(text, pre)`. -/
def pyIndentLines (text pre : String) : String :=
  pre ++ String.mk (pyIndentAux pre.toList text.toList)

/-- `replace(/\n\n+/g, '\n\n')`: collapse runs of two or more newlines to
exactly two. -/
def collapseNLAux : Nat → List Char → List Char
  | pending, [] => List.replicate (min pending 2) '\n'
  | pending, c :: rest =>
      if c == '\n' then collapseNLAux (pending + 1) rest
      else List.replicate (min pending 2) '\n' ++ c :: collapseNLAux 0 rest

def collapseNL (s : String) : String := String.mk (collapseNLAux 0 s.toList)

/-- `replace(/\n*$/, '\n')`: exactly one trailing newline. -/
def fixTrailingNL (s : String) : String :=
  String.mk ((s.toList.reverse.dropWhile (· == '\n')).reverse) ++ "\n"

/-- `Blockly.Python.finish(code)`. -/
def pyFinish (s : PyState) (code : String) : String :=
  let allDefs := String.intercalate "\n\n" (s.definitions.map (·.2))
  fixTrailingNL (collapseNL allDefs) ++ "\n\n" ++ code

/-- `code.replace(/^\s+\n/, '')` at the end of `workspaceToCode`:
drop the leading whitespace run up to (and including) its last newline,
provided that newline has at least one whitespace character before it. -/
def stripLeadingWsNL (s : String) : String :=
  let cs := s.toList
  let run := cs.takeWhile isSpaceJS
  let idxs := (List.range run.length).filter
    (fun i => decide (1 ≤ i) && (run.get? i == some '\n'))
  match idxs.getLast? with
  | some i => String.mk (cs.drop (i + 1))
  | none => s

/-- `code.replace(/\n\s+$/, '\n')`: keep the first newline of the trailing
whitespace run, dropping the rest (when at least one whitespace character
follows that newline). -/
def stripTrailingNLRun (s : String) : String :=
  let cs := s.toList
  let t := (cs.reverse.takeWhile isSpaceJS).reverse
  let j0 := cs.length - t.length
  let idxs := (List.range t.length).filter
    (fun j => (t.get? j == some '\n') && decide (j + 1 < t.length))
  match idxs.head? with
  | some j => String.mk (cs.take (j0 + j + 1))
  | none => s

/-- Split a character list at newlines (like `String.splitOn "\n"`). -/
def splitNL : List Char → List (List Char)
  | [] => [[]]
  | '\n' :: rest => [] :: splitNL rest
  | c :: rest =>
      match splitNL rest with
      | seg :: segs => (c :: seg) :: segs
      | [] => [[c]]

/-- Rejoin the segments with newlines. -/
def joinNL : List (List Char) → List Char
  | [] => []
  | [seg] => seg
  | seg :: rest => seg ++ '\n' :: joinNL rest

def mapButLast (g : List Char → List Char) : List (List Char) → List (List Char)
  | [] => []
  | [x] => [x]
  | x :: rest => g x :: mapButLast g rest

/-- `code.replace(/[ \t]+\n/g, '\n')`: drop space/tab runs that sit
directly before a newline (the final segment, which no newline follows,
keeps its trailing spaces). -/
def stripSpacesBeforeNL (s : String) : String :=
  String.mk (joinNL (mapButLast
    (fun seg => (seg.reverse.dropWhile (fun c => c == ' ' || c == '\t')).reverse)
    (splitNL s.toList)))

/-- Decimal integer parsing for `Number(block.getFieldValue('NUM'))`
(`math_number` fields are written by the translator as optionally signed
decimal integers). -/
def decDigitsToNat? : List Char → Option Nat
  | [] => none
  | cs =>
      if cs.all (fun c => '0' ≤ c && c ≤ '9') then
        some (cs.foldl (fun a c => a * 10 + (c.toNat - '0'.toNat)) 0)
      else none

def strToInt? (s : String) : Option Int :=
  match s.toList with
  | '-' :: rest => (decDigitsToNat? rest).map (fun n => -(n : Int))
  | cs => (decDigitsToNat? cs).map (fun n => (n : Int))

/-- The value `blockToCode` returns: a plain statement string or a
`[code, order]` tuple. -/
inductive BlockOut where
  | strOut (code : String)
  | tupleOut (code : String) (order : Nat)

/-- JavaScript string coercion of a `blockToCode` result (an array
stringifies with a comma) — used by `scrub_`'s string concatenation. -/
def BlockOut.asJSString : BlockOut → String
  | .strOut s => s
  | .tupleOut c o => c ++ "," ++ toString o

/-- What a `forBlock` rule returns: a `[code, order]` tuple, a statement
string, or `null`. -/
inductive RuleRes where
  | rtuple (code : String) (order : Nat)
  | rstmt (code : String)
  | rnull

/-- `Blockly.Python.valueToCode`'s parenthesization decision: wrap iff the
outer (parent-required) order is numerically ≤ the inner (child) order,
except that two equal boundary orders (0 or 99) never wrap. -/
def pyApplyParens (outerOrder innerOrder : Nat) (code : String) : String :=
  let parensNeeded :=
    if outerOrder ≤ innerOrder then
      if outerOrder == innerOrder && (outerOrder == 0 || outerOrder == 99) then
        false
      else true
    else false
  if parensNeeded then "(" ++ code ++ ")" else code

mutual

/-- `Blockly.Python.blockToCode(block)`.  All translator-produced blocks
are enabled, so the `isEnabled` skip never triggers in this model. -/
def pyBlockToCode (fuel : Nat) (b? : Option Block) : GenM BlockOut :=
  match fuel with
  | 0 => throw "modelFuelExhausted"
  | f + 1 =>
    match b? with
    | none => pure (.strOut "")
    | some b => do
        let res ← pyRule f b
        match res with
        | .rtuple code order => pure (.tupleOut code order)
        | .rstmt code => do
            let nextOut ← pyBlockToCode f b.next
            pure (.strOut (code ++ nextOut.asJSString))
        | .rnull => pure (.strOut "")
termination_by structural fuel

/-- `Blockly.Python.valueToCode(block, name, outerOrder)`. -/
def pyValueToCode (fuel : Nat) (b : Block) (name : String) (outerOrder : Nat) :
    GenM String :=
  match fuel with
  | 0 => throw "modelFuelExhausted"
  | f + 1 =>
    match b.getInputTarget name with
    | none => pure ""
    | some target => do
        let tuple ← pyBlockToCode f (some target)
        match tuple with
        | .strOut s => pure s
        | .tupleOut code innerOrder =>
            if code == "" then pure ""
            else pure (pyApplyParens outerOrder innerOrder code)
termination_by structural fuel

/-- `valueToCode(...) || fallback`. -/
def pyValOr (fuel : Nat) (b : Block) (name : String) (order : Nat)
    (fallback : String) : GenM String :=
  match fuel with
  | 0 => throw "modelFuelExhausted"
  | f + 1 => do
      let c ← pyValueToCode f b name order
      pure (if c == "" then fallback else c)
termination_by structural fuel

/-- `Blockly.Python.statementToCode(block, name)`. -/
def pyStatementToCode (fuel : Nat) (b : Block) (name : String) : GenM String :=
  match fuel with
  | 0 => throw "modelFuelExhausted"
  | f + 1 => do
      let out ← pyBlockToCode f (b.getInputTarget name)
      match out with
      | .tupleOut _ _ =>
          throw ("Expecting code from statement block: "
            ++ (match b.getInputTarget name with
                | some t => t.btype
                | none => "null"))
      | .strOut code =>
          pure (if code == "" then "" else pyIndentLines code pyINDENT)
termination_by structural fuel

/-- `statementToCode(...) || Blockly.Python.PASS`. -/
def pyStmtOr (fuel : Nat) (b : Block) (name : String) : GenM String :=
  match fuel with
  | 0 => throw "modelFuelExhausted"
  | f + 1 => do
      let c ← pyStatementToCode f b name
      pure (if c == "" then pyPASS else c)
termination_by structural fuel

/-- The `do … while (block.getInput('IF' + n))` loop of `controls_if`
(the `STATEMENT_PREFIX` / `STATEMENT_SUFFIX` hooks are unset in this app). -/
def pyIfChain (fuel : Nat) (b : Block) (n : Nat) (acc : String) : GenM String :=
  match fuel with
  | 0 => throw "modelFuelExhausted"
  | f + 1 => do
      let conditionCode ← pyValOr f b ("IF" ++ toString n) ORDER_NONE "False"
      let branchCode ← pyStmtOr f b ("DO" ++ toString n)
      let acc := acc ++ (if n == 0 then "if " else "elif ") ++ conditionCode
        ++ ":\n" ++ branchCode
      if b.hasInput ("IF" ++ toString (n + 1)) then pyIfChain f b (n + 1) acc
      else pure acc
termination_by structural fuel

/-- The `ADDi` collection loops of `text_join` / `lists_create_with`. -/
def pyItemList (fuel : Nat) (b : Block) (i count : Nat) (fallback : String) :
    GenM (List String) :=
  match fuel with
  | 0 => throw "modelFuelExhausted"
  | f + 1 =>
    match count with
    | 0 => pure []
    | c + 1 => do
        let e ← pyValOr f b ("ADD" ++ toString i) ORDER_NONE fallback
        let rest ← pyItemList f b (i + 1) c fallback
        pure (e :: rest)
termination_by structural fuel

/-- The `forBlock` rule table: one case per registered block type, in
source order; the default case is `blockToCode`'s fatal
`does not know how to generate code` error. -/
def pyRule (fuel : Nat) (b : Block) : GenM RuleRes :=
  match fuel with
  | 0 => throw "modelFuelExhausted"
  | f + 1 =>
    match b.btype with
    | "enable_torque" => pure (.rstmt "# enable_torque not supported in Python API\n")
    | "disable_torque" => pure (.rstmt "# disable_torque not supported in Python API\n")
    | "enable_all" => pure (.rstmt "# enable_all not supported in Python API\n")
    | "disable_all" => pure (.rstmt "# disable_all not supported in Python API\n")
    | "check_joints" => pure (.rstmt "# check_joints not supported in Python API\n")
    | "ping_joint" => pure (.rtuple "False" ORDER_ATOMIC)
    | "reboot_joint" => pure (.rstmt "# reboot_joint not supported in Python API\n")
    | "reboot_all" => pure (.rstmt "# reboot_all not supported in Python API\n")
    | "set_joint" => do
        let _joint ← pyValOr f b "JOINT" ORDER_ATOMIC "2048"
        pure (.rstmt "# set_joint not directly supported - use goto_target or set_target instead\n")
    | "set_degrees" => do
        let motor := b.getField "MOTOR"
        let deg ← pyValOr f b "DEGREES" ORDER_ATOMIC "0"
        let antennaIndex := if motor == "17" then "0" else "1"
        addDefinition "import_numpy" "import numpy as np"
        pure (.rstmt ("mini.set_target(antennas=[np.deg2rad(" ++ deg ++ "), 0] if "
          ++ antennaIndex ++ " == 0 else [0, np.deg2rad(" ++ deg ++ ")])\n"))
    | "get_joint" => pure (.rtuple "0" ORDER_ATOMIC)
    | "get_degrees" => pure (.rtuple "0" ORDER_ATOMIC)
    | "move_by" => do
        let _amount ← pyValOr f b "AMOUNT" ORDER_ATOMIC "0"
        pure (.rstmt "# move_by not supported in Python API\n")
    | "move_smooth" => do
        let _joint ← pyValOr f b "JOINT" ORDER_ATOMIC "2048"
        let _dur ← pyValOr f b "DURATION" ORDER_ATOMIC "1"
        pure (.rstmt "# move_smooth - use goto_target with duration instead\n")
    | "get_head_coordinates" => do
        addDefinition "import_reachy" "from reachy_mini import ReachyMini"
        addDefinition "import_utils" "from reachy_mini.utils import create_head_pose"
        pure (.rtuple "mini.head.pose" ORDER_MEMBER)
    | "set_head_coordinates" => do
        let coords ← pyValOr f b "COORDS" ORDER_ATOMIC "np.eye(4)"
        addDefinition "import_reachy" "from reachy_mini import ReachyMini"
        pure (.rstmt ("mini.goto_target(" ++ coords ++ ", duration=1.0)\n"))
    | "joints_to_coordinates" => do
        let _joints ← pyValOr f b "JOINTS" ORDER_ATOMIC "[]"
        pure (.rtuple "[]" ORDER_ATOMIC)
    | "coordinates_to_joints" => do
        let _coordinates ← pyValOr f b "COORDINATES" ORDER_ATOMIC "[0,0,0,0,0,0]"
        pure (.rtuple "[]" ORDER_ATOMIC)
    | "create_coordinates" => do
        let x ← pyValOr f b "X" ORDER_ATOMIC "0"
        let y ← pyValOr f b "Y" ORDER_ATOMIC "0"
        let z ← pyValOr f b "Z" ORDER_ATOMIC "0"
        let roll ← pyValOr f b "ROLL" ORDER_ATOMIC "0"
        let pitch ← pyValOr f b "PITCH" ORDER_ATOMIC "0"
        let yaw ← pyValOr f b "YAW" ORDER_ATOMIC "0"
        addDefinition "import_utils" "from reachy_mini.utils import create_head_pose"
        pure (.rtuple ("create_head_pose(x=" ++ x ++ ", y=" ++ y ++ ", z=" ++ z
          ++ ", roll=" ++ roll ++ ", pitch=" ++ pitch ++ ", yaw=" ++ yaw
          ++ ", degrees=True, mm=True)") ORDER_FUNCTION_CALL)
    | "get_coordinate" => do
        let component := b.getField "COMPONENT"
        let coordinates ← pyValOr f b "COORDINATES" ORDER_MEMBER "np.eye(4)"
        if component == "0" || component == "1" || component == "2" then
          let suffix := if component == "0" then "[0,3]"
            else if component == "1" then "[1,3]" else "[2,3]"
          pure (.rtuple ("(" ++ coordinates ++ ")" ++ suffix) ORDER_MEMBER)
        else pure (.rtuple "0" ORDER_ATOMIC)
    | "is_moving" => pure (.rtuple "False" ORDER_ATOMIC)
    | "wait_until_stopped" => do
        let _timeout ← pyValOr f b "TIMEOUT" ORDER_ATOMIC "5"
        pure (.rstmt "# wait_until_stopped not supported in Python API\n")
    | "get_load" => pure (.rtuple "0" ORDER_ATOMIC)
    | "get_temperature" => pure (.rtuple "0" ORDER_ATOMIC)
    | "joint_in_range" => do
        let _min ← pyValOr f b "MIN" ORDER_ATOMIC "-180"
        let _max ← pyValOr f b "MAX" ORDER_ATOMIC "180"
        pure (.rtuple "False" ORDER_ATOMIC)
    | "wait" => do
        let time ← pyValOr f b "TIME" ORDER_ATOMIC "1"
        addDefinition "import_time" "import time"
        pure (.rstmt ("time.sleep(" ++ time ++ ")\n"))
    | "wait_ms" => do
        let time ← pyValOr f b "TIME" ORDER_ATOMIC "100"
        addDefinition "import_time" "import time"
        pure (.rstmt ("time.sleep(" ++ time ++ " / 1000)\n"))
    | "get_time" => do
        addDefinition "import_time" "import time"
        pure (.rtuple "int(time.time() * 1000)" ORDER_FUNCTION_CALL)
    | "reset_timer" => pure (.rstmt "program_timer = time.time()\n")
    | "timer_value" => do
        addDefinition "import_time" "import time"
        pure (.rtuple "(time.time() - program_timer)" ORDER_ADDITIVE)
    | "log" => do
        let msg ← pyValOr f b "MESSAGE" ORDER_ATOMIC "\"\""
        pure (.rstmt ("print(" ++ msg ++ ")\n"))
    | "log_joint" => do
        let motor := b.getField "MOTOR"
        pure (.rstmt ("print(\"Joint " ++ motor
          ++ ":\")  # Joint values not readable in Python API\n"))
    | "log_type" => do
        let msg ← pyValOr f b "MESSAGE" ORDER_ATOMIC "\"\""
        let ty := b.getField "TYPE"
        pure (.rstmt ("print(" ++ msg ++ ")  # Log type: " ++ ty ++ "\n"))
    | "alert" => do
        let msg ← pyValOr f b "MESSAGE" ORDER_ATOMIC "\"\""
        pure (.rstmt ("print(" ++ msg ++ ")  # Alert\n"))
    | "controls_if" => do
        let code ← pyIfChain f b 0 ""
        if b.hasInput "ELSE" then
          let branchCode ← pyStmtOr f b "ELSE"
          pure (.rstmt (code ++ "else:\n" ++ branchCode))
        else pure (.rstmt code)
    | "controls_repeat_ext" => do
        let repeats ← pyValOr f b "TIMES" ORDER_NONE "0"
        let branch ← pyStmtOr f b "DO"
        let loopVar ← genGetDistinctName "count"
        pure (.rstmt ("for " ++ loopVar ++ " in range(int(" ++ repeats ++ ")):\n"
          ++ branch))
    | "controls_whileUntil" => do
        let until_ := b.getField "MODE" == "UNTIL"
        let argument0 ← pyValOr f b "BOOL"
          (if until_ then ORDER_LOGICAL_NOT else ORDER_NONE) "False"
        let branch ← pyStmtOr f b "DO"
        let argument0 := if until_ then "not " ++ argument0 else argument0
        pure (.rstmt ("while " ++ argument0 ++ ":\n" ++ branch))
    | "controls_for" => do
        let variable0 ← genGetName (b.getField "VAR")
        let argument0 ← pyValOr f b "FROM" ORDER_NONE "0"
        let argument1 ← pyValOr f b "TO" ORDER_NONE "0"
        let increment ← pyValOr f b "BY" ORDER_NONE "1"
        let branch ← pyStmtOr f b "DO"
        pure (.rstmt ("for " ++ variable0 ++ " in range(int(" ++ argument0
          ++ "), int(" ++ argument1 ++ ") + 1, int(" ++ increment ++ ")):\n"
          ++ branch))
    | "controls_forEach" => do
        let variable0 ← genGetName (b.getField "VAR")
        let argument0 ← pyValOr f b "LIST" ORDER_RELATIONAL "[]"
        let branch ← pyStmtOr f b "DO"
        pure (.rstmt ("for " ++ variable0 ++ " in " ++ argument0 ++ ":\n" ++ branch))
    | "controls_flow_statements" =>
        match b.getField "FLOW" with
        | "BREAK" => pure (.rstmt "break\n")
        | "CONTINUE" => pure (.rstmt "continue\n")
        | _ => pure (.rstmt "")
    | "logic_boolean" =>
        pure (.rtuple (if b.getField "BOOL" == "TRUE" then "True" else "False")
          ORDER_ATOMIC)
    | "logic_null" => pure (.rtuple "None" ORDER_ATOMIC)
    | "logic_negate" => do
        let argument0 ← pyValOr f b "BOOL" ORDER_LOGICAL_NOT "True"
        pure (.rtuple ("not " ++ argument0) ORDER_LOGICAL_NOT)
    | "logic_compare" => do
        let op := match b.getField "OP" with
          | "EQ" => "=="
          | "NEQ" => "!="
          | "LT" => "<"
          | "LTE" => "<="
          | "GT" => ">"
          | "GTE" => ">="
          | _ => "undefined"
        let argument0 ← pyValOr f b "A" ORDER_RELATIONAL "0"
        let argument1 ← pyValOr f b "B" ORDER_RELATIONAL "0"
        pure (.rtuple (argument0 ++ " " ++ op ++ " " ++ argument1) ORDER_RELATIONAL)
    | "logic_operation" => do
        let op := if b.getField "OP" == "AND" then "and" else "or"
        let order := if op == "and" then ORDER_LOGICAL_AND else ORDER_LOGICAL_OR
        let argument0 ← pyValOr f b "A" order "False"
        let argument1 ← pyValOr f b "B" order "False"
        pure (.rtuple (argument0 ++ " " ++ op ++ " " ++ argument1) order)
    | "math_number" =>
        (match strToInt? (b.getField "NUM") with
         | some n =>
             pure (.rtuple (toString n)
               (if n < 0 then ORDER_UNARY_SIGN else ORDER_ATOMIC))
         | none => pure (.rtuple "NaN" ORDER_ATOMIC))
    | "math_arithmetic" => do
        let tuple? : Option (String × Nat) := match b.getField "OP" with
          | "ADD" => some (" + ", ORDER_ADDITIVE)
          | "MINUS" => some (" - ", ORDER_ADDITIVE)
          | "MULTIPLY" => some (" * ", ORDER_MULTIPLICATIVE)
          | "DIVIDE" => some (" / ", ORDER_MULTIPLICATIVE)
          | "POWER" => some (" ** ", ORDER_EXPONENTIATION)
          | _ => none
        match tuple? with
        | none => throw "TypeError: math_arithmetic OPERATORS lookup is undefined"
        | some (op, order) => do
            let argument0 ← pyValOr f b "A" order "0"
            let argument1 ← pyValOr f b "B" order "0"
            pure (.rtuple (argument0 ++ op ++ argument1) order)
    | "math_constant" => do
        addDefinition "import_math" "import math"
        match b.getField "CONSTANT" with
        | "PI" => pure (.rtuple "math.pi" ORDER_MEMBER)
        | "E" => pure (.rtuple "math.e" ORDER_MEMBER)
        | "GOLDEN_RATIO" => pure (.rtuple "(1 + math.sqrt(5)) / 2" ORDER_MULTIPLICATIVE)
        | "SQRT2" => pure (.rtuple "math.sqrt(2)" ORDER_FUNCTION_CALL)
        | "SQRT1_2" => pure (.rtuple "math.sqrt(1.0 / 2)" ORDER_FUNCTION_CALL)
        | "INFINITY" => pure (.rtuple "float(\"inf\")" ORDER_FUNCTION_CALL)
        | _ => pure (.rtuple "0" ORDER_ATOMIC)
    | "math_single" => do
        let tuple? : Option (String × Nat) := match b.getField "OP" with
          | "ROOT" => some ("math.sqrt", ORDER_FUNCTION_CALL)
          | "ABS" => some ("abs", ORDER_FUNCTION_CALL)
          | "NEG" => some ("-", ORDER_UNARY_SIGN)
          | "LN" => some ("math.log", ORDER_FUNCTION_CALL)
          | "LOG10" => some ("math.log10", ORDER_FUNCTION_CALL)
          | "EXP" => some ("math.exp", ORDER_FUNCTION_CALL)
          | "POW10" => some ("math.pow(10, ", ORDER_FUNCTION_CALL)
          | "SIN" => some ("math.sin", ORDER_FUNCTION_CALL)
          | "COS" => some ("math.cos", ORDER_FUNCTION_CALL)
          | "TAN" => some ("math.tan", ORDER_FUNCTION_CALL)
          | "ASIN" => some ("math.asin", ORDER_FUNCTION_CALL)
          | "ACOS" => some ("math.acos", ORDER_FUNCTION_CALL)
          | "ATAN" => some ("math.atan", ORDER_FUNCTION_CALL)
          | _ => none
        match tuple? with
        | none => throw "TypeError: math_single OPERATORS lookup is undefined"
        | some (func, order) => do
            let arg ← pyValOr f b "NUM" ORDER_NONE "0"
            addDefinition "import_math" "import math"
            let code :=
              if b.getField "OP" == "NEG" then func ++ arg
              else if b.getField "OP" == "POW10" then func ++ arg ++ ")"
              else func ++ "(" ++ arg ++ ")"
            pure (.rtuple code order)
    | "math_trig" => do
        let op := match b.getField "OP" with
          | "SIN" => "math.sin"
          | "COS" => "math.cos"
          | "TAN" => "math.tan"
          | "ASIN" => "math.asin"
          | "ACOS" => "math.acos"
          | "ATAN" => "math.atan"
          | _ => "undefined"
        let arg ← pyValOr f b "NUM" ORDER_NONE "0"
        addDefinition "import_math" "import math"
        pure (.rtuple (op ++ "(" ++ arg ++ ")") ORDER_FUNCTION_CALL)
    | "math_round" => do
        let op := match b.getField "OP" with
          | "ROUND" => "round"
          | "ROUNDUP" => "math.ceil"
          | "ROUNDDOWN" => "math.floor"
          | _ => "undefined"
        let arg ← pyValOr f b "NUM" ORDER_NONE "0"
        if b.getField "OP" == "ROUNDUP" || b.getField "OP" == "ROUNDDOWN" then
          addDefinition "import_math" "import math"
        pure (.rtuple (op ++ "(" ++ arg ++ ")") ORDER_FUNCTION_CALL)
    | "math_modulo" => do
        let arg1 ← pyValOr f b "DIVIDEND" ORDER_MULTIPLICATIVE "0"
        let arg2 ← pyValOr f b "DIVISOR" ORDER_MULTIPLICATIVE "0"
        pure (.rtuple (arg1 ++ " % " ++ arg2) ORDER_MULTIPLICATIVE)
    | "math_constrain" => do
        let arg ← pyValOr f b "VALUE" ORDER_NONE "0"
        let low ← pyValOr f b "LOW" ORDER_NONE "0"
        let high ← pyValOr f b "HIGH" ORDER_NONE "0"
        pure (.rtuple ("min(max(" ++ arg ++ ", " ++ low ++ "), " ++ high ++ ")")
          ORDER_FUNCTION_CALL)
    | "math_random_int" => do
        let arg1 ← pyValOr f b "FROM" ORDER_NONE "0"
        let arg2 ← pyValOr f b "TO" ORDER_NONE "0"
        addDefinition "import_random" "import random"
        pure (.rtuple ("random.randint(" ++ arg1 ++ ", " ++ arg2 ++ ")")
          ORDER_FUNCTION_CALL)
    | "math_random_float" => do
        addDefinition "import_random" "import random"
        pure (.rtuple "random.random()" ORDER_FUNCTION_CALL)
    | "math_atan2" => do
        let arg1 ← pyValOr f b "X" ORDER_NONE "0"
        let arg2 ← pyValOr f b "Y" ORDER_NONE "0"
        addDefinition "import_math" "import math"
        pure (.rtuple ("math.atan2(" ++ arg2 ++ ", " ++ arg1 ++ ")")
          ORDER_FUNCTION_CALL)
    | "text" => pure (.rtuple (pyQuote (b.getField "TEXT")) ORDER_ATOMIC)
    | "text_print" => do
        let msg ← pyValOr f b "TEXT" ORDER_NONE "\"\""
        pure (.rstmt ("print(" ++ msg ++ ")\n"))
    | "text_join" =>
        if b.itemCount == 0 then pure (.rtuple "''" ORDER_ATOMIC)
        else if b.itemCount == 1 then do
          let element ← pyValOr f b "ADD0" ORDER_NONE "''"
          pure (.rtuple ("str(" ++ element ++ ")") ORDER_FUNCTION_CALL)
        else do
          let elements ← pyItemList f b 0 b.itemCount "''"
          pure (.rtuple ("str(" ++ String.intercalate ") + str(" elements ++ ")")
            ORDER_FUNCTION_CALL)
    | "variables_get" => do
        let code ← genGetName (b.getField "VAR")
        pure (.rtuple code ORDER_ATOMIC)
    | "variables_set" => do
        let argument0 ← pyValOr f b "VALUE" ORDER_NONE "0"
        let varName ← genGetName (b.getField "VAR")
        pure (.rstmt (varName ++ " = " ++ argument0 ++ "\n"))
    | "lists_create_with" => do
        let elements ← pyItemList f b 0 b.itemCount "None"
        pure (.rtuple ("[" ++ String.intercalate ", " elements ++ "]") ORDER_ATOMIC)
    | t =>
        throw ("Language \"Python\" does not know how to generate code for block type \""
          ++ t ++ "\".")
termination_by structural fuel

end

/-- The `getTopBlocks` loop of `workspaceToCode`: collect each top chain's
code (first element of a tuple result), skipping empty lines. -/
def pyWorkspaceLoop (fuel : Nat) (blocks : List Block) (lines : List String) :
    GenM (List String) :=
  match fuel with
  | 0 => throw "modelFuelExhausted"
  | f + 1 =>
    match blocks with
    | [] => pure lines
    | blk :: rest => do
        let out ← pyBlockToCode f (some blk)
        let line := match out with
          | .tupleOut c _ => c
          | .strOut c => c
        pyWorkspaceLoop f rest (if line == "" then lines else lines ++ [line])

/-- The part of `workspaceToCode` after `this.init(workspace)`: render
every top chain, join with newlines, `finish`, then the three clean-up
regexes. -/
def pyWorkspaceBody (fuel : Nat) (ws : Workspace) : GenM String := do
  let lines ← pyWorkspaceLoop fuel ws.topBlocks []
  let code := String.intercalate "\n" lines
  let st ← get
  let code := pyFinish st code
  let code := stripLeadingWsNL code
  let code := stripTrailingNLRun code
  let code := stripSpacesBeforeNL code
  pure code

/-- `Blockly.Python.workspaceToCode(workspace)`: `init` (a fresh generator
context), then the rendering body.  A `blockToCode` throw propagates to
the caller as the `Except.error`. -/
def pyWorkspaceToCode (fuel : Nat) (s : PyState) (ws : Workspace) :
    Except String (String × PyState) :=
  (pyWorkspaceBody fuel ws).run (pyInit s ws)

/-! ## Support for the claim statements -/

/-- The content a slot receives when `connectValue` is offered `t`:
the child itself when it is a value (output-bearing) block, nothing
otherwise. -/
def slotOf : Option Block → Option Block
  | some b => if hasOutputConn b.btype then some b else none
  | none => none

/-- The translations of a list of subexpressions, threaded left to right
exactly as the `connectValue` loops thread them (one fuel step per
element, mirroring `connectParts` / `connectFields`). -/
def translationsOfParts (fuel : Nat) (vars : TrVars) (parts : List Expr) :
    List (Option Block) :=
  match fuel, parts with
  | 0, _ => []
  | _ + 1, [] => []
  | f + 1, p :: rest =>
      let (v', b?) := processExpression f vars p false
      b? :: translationsOfParts f v' rest

/-- The variable registry after translating a list of subexpressions. -/
def varsAfterParts (fuel : Nat) (vars : TrVars) (parts : List Expr) : TrVars :=
  match fuel, parts with
  | 0, _ => vars
  | _ + 1, [] => vars
  | f + 1, p :: rest =>
      let (v', _) := processExpression f vars p false
      varsAfterParts f v' rest

/-- Decimal digit value (inverse of `Nat.digitChar` below 10). -/
def digitVal (c : Char) : Nat :=
  if c == '0' then 0 else if c == '1' then 1 else if c == '2' then 2
  else if c == '3' then 3 else if c == '4' then 4 else if c == '5' then 5
  else if c == '6' then 6 else if c == '7' then 7 else if c == '8' then 8
  else if c == '9' then 9 else 0

def parseDecFrom (a : Nat) (cs : List Char) : Nat :=
  cs.foldl (fun a c => a * 10 + digitVal c) a

theorem parseDecFrom_append (a : Nat) (l1 l2 : List Char) :
    parseDecFrom a (l1 ++ l2) = parseDecFrom (parseDecFrom a l1) l2 := by
  simp [parseDecFrom, List.foldl_append]

theorem parseDecFrom_shift (a : Nat) (l : List Char) :
    parseDecFrom a l = a * 10 ^ l.length + parseDecFrom 0 l := by
  induction l generalizing a with
  | nil => simp [parseDecFrom]
  | cons c l ih =>
      simp only [parseDecFrom, List.foldl_cons] at *
      rw [ih (a * 10 + digitVal c), ih (0 * 10 + digitVal c)]
      simp only [List.length_cons, pow_succ]
      ring

theorem digitVal_digitChar (d : Nat) (h : d < 10) :
    digitVal (Nat.digitChar d) = d := by
  interval_cases d <;> rfl

theorem parseDec_cons (c : Char) (acc : List Char) :
    parseDecFrom 0 (c :: acc) =
      digitVal c * 10 ^ acc.length + parseDecFrom 0 acc := by
  simp only [parseDecFrom, List.foldl_cons]
  have := parseDecFrom_shift (0 * 10 + digitVal c) acc
  simpa [parseDecFrom] using this

theorem parseDec_toDigitsCore (f : Nat) :
    ∀ n acc, n < f →
      parseDecFrom 0 (Nat.toDigitsCore 10 f n acc) =
        n * 10 ^ acc.length + parseDecFrom 0 acc := by
  induction f with
  | zero => intro n acc h; omega
  | succ f ih =>
      intro n acc h
      simp only [Nat.toDigitsCore]
      by_cases h10 : n / 10 = 0
      · rw [if_pos h10, parseDec_cons,
          digitVal_digitChar _ (Nat.mod_lt _ (by omega))]
        have hlt : n < 10 := by omega
        rw [Nat.mod_eq_of_lt hlt]
      · rw [if_neg h10]
        have hn10 : n / 10 < f := by omega
        rw [ih (n / 10) (Nat.digitChar (n % 10) :: acc) hn10, parseDec_cons,
          digitVal_digitChar _ (Nat.mod_lt _ (by omega))]
        have key : n / 10 * 10 ^ (Nat.digitChar (n % 10) :: acc).length
            = n / 10 * 10 * 10 ^ acc.length := by
          simp [List.length_cons, pow_succ]; ring
        rw [key]
        have hdm : 10 * (n / 10) + n % 10 = n := Nat.div_add_mod n 10
        have expand : n / 10 * 10 * 10 ^ acc.length + n % 10 * 10 ^ acc.length
            = n * 10 ^ acc.length := by
          calc n / 10 * 10 * 10 ^ acc.length + n % 10 * 10 ^ acc.length
              = (10 * (n / 10) + n % 10) * 10 ^ acc.length := by ring
            _ = n * 10 ^ acc.length := by rw [hdm]
        omega

theorem parseDec_repr (n : Nat) : parseDecFrom 0 (Nat.repr n).data = n := by
  have h := parseDec_toDigitsCore (n + 1) n [] (Nat.lt_succ_self n)
  simpa [Nat.repr, Nat.toDigits, List.asString, parseDecFrom] using h

theorem natToString_inj {m n : Nat} (h : (toString m : String) = toString n) :
    m = n := by
  have h' : Nat.repr m = Nat.repr n := h
  have := congrArg (fun s => parseDecFrom 0 (String.data s)) h'
  simpa [parseDec_repr] using this

theorem addName_inj {i j : Nat}
    (h : ("ADD" ++ toString i : String) = "ADD" ++ toString j) : i = j := by
  apply natToString_inj
  have hd := congrArg String.data h
  simp only [String.data_append] at hd
  have := List.append_cancel_left hd
  exact congrArg String.mk this

/-! ## Connection-loop characterisation

`connectFields` (and, via the lemma below, `connectParts`) walks a run of
fresh named inputs at the end of the block's input list and fills each with
the slot content of the matching element's translation.  The invariant:
entries before the pending names are never touched (their names differ from
every pending name), and the pending names are pairwise distinct. -/

lemma map_setInput_of_not_mem (pre : List (String × Option Block))
    (nm : String) (c : Block) (h : ∀ q ∈ pre, q.1 ≠ nm) :
    pre.map (fun p => if p.1 == nm then (p.1, some c) else p) = pre := by
  induction pre with
  | nil => rfl
  | cons q rest ih =>
      have hq : (q.1 == nm) = false :=
        beq_eq_false_iff_ne.mpr (h q (List.mem_cons_self _ _))
      rw [List.map_cons, ih (fun p hp => h p (List.mem_cons_of_mem _ hp))]
      rw [hq, if_neg Bool.false_ne_true]

lemma map_setInput_fresh (nms : List String) (nm : String) (c : Block)
    (h : nm ∉ nms) :
    (nms.map (fun n => (n, (none : Option Block)))).map
        (fun p => if p.1 == nm then (p.1, some c) else p)
      = nms.map (fun n => (n, (none : Option Block))) := by
  induction nms with
  | nil => rfl
  | cons n rest ih =>
      have hn : (n == nm) = false :=
        beq_eq_false_iff_ne.mpr (fun hEq => (hEq ▸ h) (List.mem_cons_self _ _))
      rw [List.map_cons, List.map_cons,
        ih (fun hm => h (List.mem_cons_of_mem _ hm))]
      dsimp only
      rw [hn, if_neg Bool.false_ne_true]

lemma connectFields_spec :
    ∀ (names : List String) (elems : List Expr) (f : Nat) (vars : TrVars)
      (t : String) (flds : List (String × String)) (ic : Nat)
      (nx : Option Block) (pre : List (String × Option Block)),
      elems.length ≤ f →
      names.length = elems.length →
      names.Nodup →
      (∀ q ∈ pre, q.1 ∉ names) →
      connectFields f vars
          (.mk t flds ic (pre ++ names.map (fun nm => (nm, none))) nx)
          names elems
        = (varsAfterParts f vars elems,
           .mk t flds ic
             (pre ++ (names.zip (translationsOfParts f vars elems)).map
                (fun q => (q.1, slotOf q.2))) nx) := by
  intro names
  induction names with
  | nil =>
      intro elems f vars t flds ic nx pre _ hlen _ _
      have he : elems = [] := by
        cases elems with
        | nil => rfl
        | cons e es => simp at hlen
      subst he
      cases f with
      | zero => simp [connectFields, varsAfterParts, translationsOfParts]
      | succ f => simp [connectFields, varsAfterParts, translationsOfParts]
  | cons nm nms ih =>
      intro elems f vars t flds ic nx pre hf hlen hnd hpre
      cases elems with
      | nil => simp at hlen
      | cons e es =>
          cases f with
          | zero => simp only [List.length_cons] at hf; omega
          | succ f =>
              simp only [List.length_cons] at hf hlen
              obtain ⟨hnm, hnd'⟩ := List.nodup_cons.mp hnd
              rcases hpe : processExpression f vars e false with ⟨v1, eb⟩
              have hpre' : ∀ q ∈ pre ++ [(nm, slotOf eb)], q.1 ∉ nms := by
                intro q hq
                rcases List.mem_append.mp hq with hq | hq
                · exact fun hm => hpre q hq (List.mem_cons_of_mem _ hm)
                · rcases List.mem_singleton.mp hq with rfl
                  exact hnm
              have hrec := ih es f v1 t flds ic nx (pre ++ [(nm, slotOf eb)])
                (by omega) (by omega) hnd' hpre'
              simp only [List.append_assoc, List.singleton_append] at hrec
              simp only [connectFields, varsAfterParts, translationsOfParts,
                List.map_cons]
              rw [hpe]
              dsimp only
              simp only [List.zip_cons_cons, List.map_cons]
              cases eb with
              | none => simpa [slotOf] using hrec
              | some x =>
                  have hhas : (Block.mk t flds ic
                      (pre ++ ((nm, (none : Option Block))
                        :: nms.map (fun n => (n, none)))) nx).hasInput nm
                        = true := by
                    simp only [Block.hasInput, Block.inputs, List.any_eq_true]
                    exact ⟨(nm, none),
                      List.mem_append.mpr (Or.inr (List.mem_cons_self _ _)),
                      by simp⟩
                  simp only [connectValue, hhas, Bool.true_and]
                  cases hout : hasOutputConn x.btype with
                  | false => simpa [slotOf, hout] using hrec
                  | true =>
                      simp only [if_true, eq_self_iff_true,
                        Block.setInputTarget, List.map_append, List.map_cons,
                        beq_self_eq_true]
                      rw [map_setInput_of_not_mem pre nm x
                            (fun q hq hEq => hpre q hq (by simp [hEq])),
                          map_setInput_fresh nms nm x hnm]
                      simpa [slotOf, hout] using hrec

lemma connectParts_eq_connectFields :
    ∀ (f : Nat) (vars : TrVars) (b : Block) (i : Nat) (parts : List Expr),
      connectParts f vars b i parts
        = connectFields f vars b
            ((List.range' i parts.length).map
              (fun k => ("ADD" ++ toString k : String)))
            parts := by
  intro f
  induction f with
  | zero => intro vars b i parts; rfl
  | succ f ih =>
      intro vars b i parts
      cases parts with
      | nil => rfl
      | cons p rest =>
          simp only [connectParts, connectFields, List.length_cons,
            List.range'_succ, List.map_cons]
          rcases hpe : processExpression f vars p false with ⟨v1, pb⟩
          dsimp only
          cases pb with
          | none => exact ih v1 _ (i + 1) rest
          | some x => exact ih v1 _ (i + 1) rest

lemma addNames_nodup (n : Nat) :
    ((List.range n).map (fun k => ("ADD" ++ toString k : String))).Nodup :=
  List.Nodup.map (fun _ _ h => addName_inj h) (List.nodup_range n)

/-! ## Claim C1 -/

/-- The statement `arr[0] = 1;`. -/
def c1Stmt : Stmt :=
  .exprStmt (.assign "=" (.member (.ident "arr") (.numLit 0) true) (.numLit 1))

/-- The graph the translator produces for `arr[0] = 1;`. -/
def c1Block : Block :=
  .mk "lists_setIndex" [("MODE", "SET"), ("WHERE", "FROM_START")] 0
    [("LIST", some (.mk "variables_get" [("VAR", "arr")] 0 [] none)),
     ("AT", some (.mk "math_number" [("NUM", "1")] 0 [] none)),
     ("TO", some (.mk "math_number" [("NUM", "1")] 0 [] none))] none

/-- The statement `logConsole(arr.length);`. -/
def c1LenStmt : Stmt :=
  .exprStmt (.call (.ident "logConsole")
    [.member (.ident "arr") (.ident "length") false])

/-- The graph the translator produces for `logConsole(arr.length);`. -/
def c1LenBlock : Block :=
  .mk "log" [] 0
    [("MESSAGE", some (.mk "lists_length" [] 0
      [("VALUE", some (.mk "variables_get" [("VAR", "arr")] 0 [] none))] none))]
    none

/-- **C1.** The claim (and the spec) requires Backend B to have a render
rule for every node type the translator emits, in particular for
`lists_setIndex`, `lists_getIndex` and `lists_length`.  The code violates
this: the translator turns `arr[0] = 1;` into a `lists_setIndex` block and
`logConsole(arr.length);` into a chain containing a `lists_length` block,
and the Python generation entry point then throws the fatal
`does not know how to generate code` error on both graphs instead of
rendering them — the `forBlock` table of the Python generator module
registers no rule for any of the three list node types. -/
theorem c1_python_generator_missing_list_rules :
    (processStatement 9 [] c1Stmt).2 = some c1Block ∧
    pyWorkspaceToCode 20 ⟨[], [], none⟩ ⟨[c1Block], [("arr", "arr")]⟩ =
      .error "Language \"Python\" does not know how to generate code for block type \"lists_setIndex\"." ∧
    (processStatement 9 [] c1LenStmt).2 = some c1LenBlock ∧
    pyWorkspaceToCode 20 ⟨[], [], none⟩ ⟨[c1LenBlock], [("arr", "arr")]⟩ =
      .error "Language \"Python\" does not know how to generate code for block type \"lists_length\"." :=
  ⟨rfl, rfl, rfl, rfl⟩

/-! ## Claim C7 -/

/-- **C7.** When the external parser throws on the (await-stripped) input,
`jsToBlocks` returns `{ success: false, error: e.message }` with the
parser's message verbatim, and the workspace is returned exactly as it
was: the parse happens before any block is created, connected or
positioned. -/
theorem c7_parse_failure_leaves_workspace_untouched
    (parse : String → Except String (List Stmt)) (fuel : Nat) (src : String)
    (ws : Workspace) (msg : String)
    (h : parse (stripAwait src) = .error msg) :
    jsToBlocks parse fuel src ws = (⟨false, some msg⟩, ws) := by
  simp [jsToBlocks, h]

/-- Witness for C7 at a concrete failing parse. -/
theorem c7_parse_failure_witness :
    (fun _ : String => (.error "Unexpected token (1:8)" : Except String (List Stmt)))
        (stripAwait "let x = ") = .error "Unexpected token (1:8)" ∧
    jsToBlocks
      (fun _ : String => (.error "Unexpected token (1:8)" : Except String (List Stmt)))
      9 "let x = " ⟨[], []⟩ =
      (⟨false, some "Unexpected token (1:8)"⟩, ⟨[], []⟩) :=
  ⟨rfl, c7_parse_failure_leaves_workspace_untouched _ 9 "let x = " ⟨[], []⟩
    "Unexpected token (1:8)" rfl⟩

/-! ## Claim C9 -/

/-- The AST of the stripped source `logConsole("me")`. -/
def c9Stmt : Stmt := .exprStmt (.call (.ident "logConsole") [.strLit "me"])

/-- The block `jsToBlocks` appends for it: the text node carries the
stripped content `"me"`, not the original literal `"await me"`. -/
def c9LogBlock : Block :=
  .mk "log" [] 0 [("MESSAGE", some (.mk "text" [("TEXT", "me")] 0 [] none))] none

/-- **C9.** `jsToBlocks` textually deletes every `\bawait\s+` occurrence
from the raw source before parsing — string literals included.  For the
input `logConsole("await me")` the text handed to the parser is
`logConsole("me")`, so (for any parser that parses that stripped text to
its AST) the workspace gains a `log` block whose text node carries
`"me"`. -/
theorem c9_await_stripped_inside_string_literals :
    stripAwait "logConsole(\"await me\")" = "logConsole(\"me\")" ∧
    ∀ (parse : String → Except String (List Stmt)) (ws : Workspace),
      parse "logConsole(\"me\")" = .ok [c9Stmt] →
      jsToBlocks parse 9 "logConsole(\"await me\")" ws =
        (⟨true, none⟩, ⟨ws.topBlocks ++ [c9LogBlock], ws.varMap⟩) := by
  refine ⟨rfl, fun parse ws h => ?_⟩
  have hloop : ∀ vs : TrVars, jsToBlocksLoop 9 vs [c9Stmt] [] = (vs, [c9LogBlock]) :=
    fun _ => rfl
  simp [jsToBlocks, show stripAwait "logConsole(\"await me\")" = "logConsole(\"me\")" from rfl,
    h, hloop]

/-- Witness for C9 with a concrete parser on the empty workspace. -/
theorem c9_await_stripped_witness :
    (fun s => if s = "logConsole(\"me\")" then (.ok [c9Stmt] : Except String (List Stmt))
       else .error "SyntaxError") "logConsole(\"me\")" = .ok [c9Stmt] ∧
    jsToBlocks
      (fun s => if s = "logConsole(\"me\")" then (.ok [c9Stmt] : Except String (List Stmt))
        else .error "SyntaxError")
      9 "logConsole(\"await me\")" ⟨[], []⟩ =
      (⟨true, none⟩, ⟨[c9LogBlock], []⟩) := by
  refine ⟨by simp, ?_⟩
  have h := c9_await_stripped_inside_string_literals.2
    (fun s => if s = "logConsole(\"me\")" then (.ok [c9Stmt] : Except String (List Stmt))
      else .error "SyntaxError") ⟨[], []⟩ (by simp)
  simpa using h

/-! ## Claim C10 -/

/-- **C10.** A call `Robot.setTorque(m, e)` with at least two arguments
always translates to a torque statement block and never to `null`;
the block kind is `enable_torque` iff the second argument is the boolean
literal `true` (`args[1].value === true`), and `disable_torque` for every
other second argument (the literal `false`, an identifier, or any
non-literal expression). -/
theorem c10_setTorque_kind (f : Nat) (vars : TrVars) (m e : Expr)
    (rest : List Expr) (asStatement : Bool) :
    processExpression (f + 3) vars
        (.call (.member (.ident "Robot") (.ident "setTorque") false)
          (m :: e :: rest)) asStatement =
      (vars, some (setMotorField
        (newBlock (if e.literalValueIsTrue then "enable_torque"
          else "disable_torque")) m)) ∧
    (e.literalValueIsTrue = true ↔ e = .boolLit true) := by
  constructor
  · rfl
  · constructor
    · intro h
      cases e with
      | boolLit b => cases b with
        | true => rfl
        | false => simp [Expr.literalValueIsTrue] at h
      | _ => simp [Expr.literalValueIsTrue] at h
    · intro h; subst h; rfl

/-! ## Branch restatements of `processExpression`

Definitional restatements (proved by `rfl`) of single branches of
`processExpression`, used to unfold it cheaply inside proofs. -/

lemma pe_member_computed (f : Nat) (vars : TrVars) (obj prop : Expr) (st : Bool) :
    processExpression (f + 1) vars (.member obj prop true) st =
      (let b := ((newBlock "lists_getIndex").setField "MODE" "GET").setField
        "WHERE" "FROM_START"
       let p1 := processExpression f vars obj false
       let b := match p1.2 with
         | some x => connectValue b "VALUE" x
         | none => b
       let p2 :=
         (match prop.numLitVal with
          | some k =>
              (p1.1, connectValue b "AT"
                ((newBlock "math_number").setField "NUM" (toString (k + 1))))
          | none =>
              let q := processExpression f p1.1 prop false
              match q.2 with
              | some ib =>
                  let addBlock := (newBlock "math_arithmetic").setField "OP" "ADD"
                  let addBlock := connectValue addBlock "A" ib
                  let oneBlock := (newBlock "math_number").setField "NUM" "1"
                  let addBlock := connectValue addBlock "B" oneBlock
                  (q.1, connectValue b "AT" addBlock)
              | none => (q.1, b))
       (p2.1, some p2.2)) := rfl

lemma pe_assign_computed (f : Nat) (vars : TrVars) (aop : String)
    (mobj mprop right : Expr) (st : Bool) :
    processExpression (f + 1) vars (.assign aop (.member mobj mprop true) right) st =
      (let b := ((newBlock "lists_setIndex").setField "MODE" "SET").setField
        "WHERE" "FROM_START"
       let p1 := processExpression f vars mobj false
       let b := match p1.2 with
         | some x => connectValue b "LIST" x
         | none => b
       let p2 :=
         (match mprop.numLitVal with
          | some k =>
              (p1.1, connectValue b "AT"
                ((newBlock "math_number").setField "NUM" (toString (k + 1))))
          | none =>
              let q := processExpression f p1.1 mprop false
              match q.2 with
              | some ib =>
                  let addBlock := (newBlock "math_arithmetic").setField "OP" "ADD"
                  let addBlock := connectValue addBlock "A" ib
                  let oneBlock := (newBlock "math_number").setField "NUM" "1"
                  let addBlock := connectValue addBlock "B" oneBlock
                  (q.1, connectValue b "AT" addBlock)
              | none => (q.1, b))
       let p3 := processExpression f p2.1 right false
       let b := match p3.2 with
         | some vb => connectValue p2.2 "TO" vb
         | none => p2.2
       (p3.1, some b)) := rfl

lemma pe_call_mathfn (f : Nat) (vars : TrVars) (fn : String) (c : Bool)
    (args : List Expr) (st : Bool) :
    processExpression (f + 1) vars
        (.call (.member (.ident "Math") (.ident fn) c) args) st =
      (match trigOp fn, args with
       | some op, arg :: _ =>
           let b := (newBlock "math_trig").setField "OP" op
           let p := processExpression f vars (degAngleOf arg) false
           let b := match p.2 with
             | some a => connectValue b "NUM" a
             | none => b
           (p.1, some b)
       | _, _ =>
         match roundOp fn, args with
         | some op, arg :: _ =>
             let b := (newBlock "math_round").setField "OP" op
             let p := processExpression f vars arg false
             let b := match p.2 with
               | some a => connectValue b "NUM" a
               | none => b
             (p.1, some b)
         | _, _ =>
           match singleOp fn, args with
           | some op, arg :: _ =>
               let b := (newBlock "math_single").setField "OP" op
               let p := processExpression f vars arg false
               let b := match p.2 with
                 | some a => connectValue b "NUM" a
                 | none => b
               (p.1, some b)
           | _, _ =>
               processCallTail f vars (.member (.ident "Math") (.ident fn) c) args st) :=
  rfl

lemma pe_binary (f : Nat) (vars : TrVars) (bop : String) (l r : Expr) (st : Bool) :
    processExpression (f + 1) vars (.binary bop l r) st =
      (match matchInvTrig (.binary bop l r) with
       | some (op, x) =>
           let b := (newBlock "math_trig").setField "OP" op
           let p := processExpression f vars x false
           let b := match p.2 with
             | some a => connectValue b "NUM" a
             | none => b
           (p.1, some b)
       | none =>
         if comparisonOps.contains bop then
           let b := (newBlock "logic_compare").setField "OP" (opMapJS bop)
           let p1 := processExpression f vars l false
           let p2 := processExpression f p1.1 r false
           let b := match p1.2 with
             | some x => connectValue b "A" x
             | none => b
           let b := match p2.2 with
             | some x => connectValue b "B" x
             | none => b
           (p2.1, some b)
         else if bop == "+"
             && (flattenStringConcat (.binary bop l r)).any Expr.isStrLit then
           let parts := flattenStringConcat (.binary bop l r)
           let b := setItemCount (newBlock "text_join") parts.length
           let p := connectParts f vars b 0 parts
           (p.1, some p.2)
         else if arithmeticOps.contains bop then
           let b := (newBlock "math_arithmetic").setField "OP" (opMapJS bop)
           let p1 := processExpression f vars l false
           let p2 := processExpression f p1.1 r false
           let b := match p1.2 with
             | some x => connectValue b "A" x
             | none => b
           let b := match p2.2 with
             | some x => connectValue b "B" x
             | none => b
           (p2.1, some b)
         else (vars, none)) := rfl

lemma pe_arrayLit (f : Nat) (vars : TrVars) (elems : List Expr) (st : Bool) :
    processExpression (f + 1) vars (.arrayLit elems) st =
      (if elems.length == 6 then
         let p := connectFields f vars (newBlock "create_coordinates")
           ["X", "Y", "Z", "ROLL", "PITCH", "YAW"] elems
         (p.1, some p.2)
       else
         let p := connectParts f vars
           (setItemCount (newBlock "lists_create_with") elems.length) 0 elems
         (p.1, some p.2)) := rfl

/-! ## Claim C2 -/

/-- The counterexample graph: `arr[foo()]` — the index is a non-literal
expression whose translation is `null` (no call rule matches `foo`). -/
def c2Expr : Expr := .member (.ident "arr") (.call (.ident "foo") []) true

/-- **C2 counterexample.** The claim says a computed access with a
non-literal index always attaches an add node as the index child; for
`arr[foo()]` the translator attaches nothing: the produced
`lists_getIndex` block's `AT` slot is empty. -/
theorem c2_counterexample_unattached_index :
    (processExpression 9 [] c2Expr false).2 =
      some (.mk "lists_getIndex" [("MODE", "GET"), ("WHERE", "FROM_START")] 0
        [("VALUE", some (.mk "variables_get" [("VAR", "arr")] 0 [] none)),
         ("AT", none)] none) ∧
    ((processExpression 9 [] c2Expr false).2.map
      (fun b => b.getInputTarget "AT")) = some none :=
  ⟨rfl, rfl⟩

/-- The "(index) + 1" node built for a translated non-literal index. -/
def plusOneNode (ib : Block) : Block :=
  .mk "math_arithmetic" [("OP", "ADD")] 0
    [("A", slotOf (some ib)),
     ("B", some (.mk "math_number" [("NUM", "1")] 0 [] none))] none

/-- **C2 (amended).** A literal numeric index `k` is folded to a number
node carrying `k + 1` in both the sequence-get and the sequence-set
translation; a non-literal index `e` gets an add node over the translation
of `e` and the literal 1 attached whenever that translation is non-null
(its first operand slot holding the translation when it is a value block),
and no index child at all when the translation of `e` is null. -/
theorem c2_index_adjustment_amended :
    (∀ (f : Nat) (vars : TrVars) (obj : Expr) (k : Int) (st : Bool), ∃ blk,
      (processExpression (f + 1) vars (.member obj (.numLit k) true) st).2 = some blk ∧
      blk.btype = "lists_getIndex" ∧
      blk.getInputTarget "AT" =
        some (.mk "math_number" [("NUM", toString (k + 1))] 0 [] none)) ∧
    (∀ (f : Nat) (vars : TrVars) (aop : String) (obj rhs : Expr) (k : Int)
        (st : Bool), ∃ blk,
      (processExpression (f + 1) vars
        (.assign aop (.member obj (.numLit k) true) rhs) st).2 = some blk ∧
      blk.btype = "lists_setIndex" ∧
      blk.getInputTarget "AT" =
        some (.mk "math_number" [("NUM", toString (k + 1))] 0 [] none)) ∧
    (∀ (f : Nat) (vars : TrVars) (obj e : Expr) (st : Bool),
      e.numLitVal = none → ∃ blk,
      (processExpression (f + 1) vars (.member obj e true) st).2 = some blk ∧
      blk.btype = "lists_getIndex" ∧
      blk.getInputTarget "AT" =
        ((processExpression f (processExpression f vars obj false).1 e false).2.map
          plusOneNode)) ∧
    (∀ (f : Nat) (vars : TrVars) (aop : String) (obj e rhs : Expr) (st : Bool),
      e.numLitVal = none → ∃ blk,
      (processExpression (f + 1) vars
        (.assign aop (.member obj e true) rhs) st).2 = some blk ∧
      blk.btype = "lists_setIndex" ∧
      blk.getInputTarget "AT" =
        ((processExpression f (processExpression f vars obj false).1 e false).2.map
          plusOneNode)) := by
  refine ⟨fun f vars obj k st => ?_, fun f vars aop obj rhs k st => ?_,
    fun f vars obj e st he => ?_, fun f vars aop obj e rhs st he => ?_⟩
  · rw [pe_member_computed]
    rcases hobj : processExpression f vars obj false with ⟨v1, lb⟩
    cases lb with
    | none => exact ⟨_, rfl, rfl, rfl⟩
    | some a =>
        cases hout : hasOutputConn a.btype <;>
          · simp only [connectValue, Block.hasInput, hout]
            exact ⟨_, rfl, rfl, rfl⟩
  · rw [pe_assign_computed]
    rcases hobj : processExpression f vars obj false with ⟨v1, lb⟩
    dsimp only [Expr.numLitVal]
    rcases hrhs : processExpression f v1 rhs false with ⟨v3, vb⟩
    cases lb with
    | none =>
        cases vb with
        | none => exact ⟨_, rfl, rfl, rfl⟩
        | some w =>
            cases hw : hasOutputConn w.btype <;>
              · simp only [connectValue, Block.hasInput, hw]
                exact ⟨_, rfl, rfl, rfl⟩
    | some a =>
        cases hout : hasOutputConn a.btype <;>
          simp only [connectValue, Block.hasInput, hout] <;>
          · cases vb with
            | none => exact ⟨_, rfl, rfl, rfl⟩
            | some w =>
                cases hw : hasOutputConn w.btype <;>
                  · simp only [connectValue, Block.hasInput, hw]
                    exact ⟨_, rfl, rfl, rfl⟩
  · rw [pe_member_computed]
    rcases hobj : processExpression f vars obj false with ⟨v1, lb⟩
    rw [he]
    dsimp only
    rcases hidx : processExpression f v1 e false with ⟨v2, ib⟩
    cases lb with
    | none =>
        cases ib with
        | none => exact ⟨_, rfl, rfl, rfl⟩
        | some i =>
            cases hi : hasOutputConn i.btype <;>
              · simp only [connectValue, Block.hasInput, hi]
                refine ⟨_, rfl, rfl, ?_⟩
                simp only [plusOneNode, slotOf, hi, Option.map]
                rfl
    | some a =>
        cases hout : hasOutputConn a.btype <;>
          simp only [connectValue, Block.hasInput, hout] <;>
          · cases ib with
            | none => exact ⟨_, rfl, rfl, rfl⟩
            | some i =>
                cases hi : hasOutputConn i.btype <;>
                  · simp only [connectValue, Block.hasInput, hi]
                    refine ⟨_, rfl, rfl, ?_⟩
                    simp only [plusOneNode, slotOf, hi, Option.map]
                    rfl
  · rw [pe_assign_computed]
    rcases hobj : processExpression f vars obj false with ⟨v1, lb⟩
    rw [he]
    dsimp only
    rcases hidx : processExpression f v1 e false with ⟨v2, ib⟩
    cases lb with
    | none =>
        cases ib with
        | none =>
            dsimp only
            rcases hrhs : processExpression f v2 rhs false with ⟨v3, vb⟩
            cases vb with
            | none => exact ⟨_, rfl, rfl, rfl⟩
            | some w =>
                simp only [connectValue, Block.hasInput, slotOf, plusOneNode, Option.map]
                cases hasOutputConn w.btype <;> exact ⟨_, rfl, rfl, rfl⟩
        | some i =>
            dsimp only
            rcases hrhs : processExpression f v2 rhs false with ⟨v3, vb⟩
            cases vb with
            | none =>
                simp only [connectValue, Block.hasInput, slotOf, plusOneNode, Option.map]
                cases hasOutputConn i.btype <;> exact ⟨_, rfl, rfl, rfl⟩
            | some w =>
                simp only [connectValue, Block.hasInput, slotOf, plusOneNode, Option.map]
                cases hasOutputConn i.btype <;> cases hasOutputConn w.btype <;>
                  exact ⟨_, rfl, rfl, rfl⟩
    | some a =>
        cases ib with
        | none =>
            dsimp only
            rcases hrhs : processExpression f v2 rhs false with ⟨v3, vb⟩
            cases vb with
            | none =>
                simp only [connectValue, Block.hasInput, slotOf, plusOneNode, Option.map]
                cases hasOutputConn a.btype <;> exact ⟨_, rfl, rfl, rfl⟩
            | some w =>
                simp only [connectValue, Block.hasInput, slotOf, plusOneNode, Option.map]
                cases hasOutputConn a.btype <;> cases hasOutputConn w.btype <;>
                  exact ⟨_, rfl, rfl, rfl⟩
        | some i =>
            dsimp only
            rcases hrhs : processExpression f v2 rhs false with ⟨v3, vb⟩
            cases vb with
            | none =>
                simp only [connectValue, Block.hasInput, slotOf, plusOneNode, Option.map]
                cases hasOutputConn a.btype <;> cases hasOutputConn i.btype <;>
                  exact ⟨_, rfl, rfl, rfl⟩
            | some w =>
                simp only [connectValue, Block.hasInput, slotOf, plusOneNode, Option.map]
                cases hasOutputConn a.btype <;> cases hasOutputConn i.btype <;>
                  cases hasOutputConn w.btype <;> exact ⟨_, rfl, rfl, rfl⟩

/-- Witness for the amended C2 at a concrete non-literal index
(`arr[i]` with identifier index). -/
theorem c2_index_adjustment_witness :
    (Expr.ident "i").numLitVal = none ∧
    ∃ blk,
      (processExpression 9 [] (.member (.ident "arr") (.ident "i") true) false).2
        = some blk ∧
      blk.btype = "lists_getIndex" ∧
      blk.getInputTarget "AT" =
        ((processExpression 8
          (processExpression 8 [] (.ident "arr") false).1 (.ident "i") false).2.map
            plusOneNode) :=
  ⟨rfl, c2_index_adjustment_amended.2.2.1 8 [] (.ident "arr") (.ident "i") false rfl⟩

/-! ## Claim C3 -/

/-- The forward degrees idiom shape `(inner * Math.PI) / 180`. -/
def mkDegShape (inner : Expr) : Expr :=
  .binary "/" (.binary "*" inner (.member (.ident "Math") (.ident "PI") false))
    (.numLit 180)

/-- The `math_trig` node the translator builds over an operand
translation. -/
def trigNodeOver (op : String) (t : Option Block) : Block :=
  .mk "math_trig" [("OP", op)] 0 [("NUM", slotOf t)] none

/-- `degAngleOf` either leaves the argument alone (no conversion
inferred) or the argument has exactly the `(inner * π-member) / 180`
shape and `inner` is extracted. -/
theorem degAngleOf_cases (arg : Expr) :
    degAngleOf arg = arg ∨
      ∃ inner pi, arg = .binary "/" (.binary "*" inner pi) (.numLit 180)
        ∧ isMathPI pi = true ∧ degAngleOf arg = inner := by
  unfold degAngleOf
  split
  · split
    · next ll lr =>
        by_cases hpi : isMathPI lr
        · rw [if_pos hpi]
          exact Or.inr ⟨ll, lr, rfl, hpi, rfl⟩
        · rw [if_neg hpi]
          exact Or.inl rfl
    · exact Or.inl rfl
  · exact Or.inl rfl

/-- **C3.** The trig idioms: (i) a call `Math.fn(arg)` with
`fn ∈ {sin, cos, tan}` becomes a single `math_trig` node whose sole
operand slot holds the translation of `degAngleOf arg`; (ii)
`degAngleOf` extracts `inner` from the exact `(inner * Math.PI) / 180`
shape and (iii) otherwise leaves the argument to translate normally
(`degAngleOf_cases`); (iv) the inverse shape
`Math.g(x) * 180 / Math.PI` with `g ∈ {asin, acos, atan}` is matched by
`matchInvTrig`, (v) a matched division collapses to a single `math_trig`
node over the translation of `x`, and (vi) an unmatched division
translates normally as a binary arithmetic divide node over the two
subexpression translations. -/
theorem c3_trig_degree_idioms :
    (∀ (f : Nat) (vars : TrVars) (fn op : String) (arg : Expr)
        (rest : List Expr) (st : Bool),
      trigOp fn = some op → (fn = "sin" ∨ fn = "cos" ∨ fn = "tan") →
      processExpression (f + 1) vars
          (.call (.member (.ident "Math") (.ident fn) false) (arg :: rest)) st =
        ((processExpression f vars (degAngleOf arg) false).1,
         some (trigNodeOver op (processExpression f vars (degAngleOf arg) false).2))) ∧
    (∀ inner, degAngleOf (mkDegShape inner) = inner) ∧
    (∀ arg, degAngleOf arg = arg ∨
      ∃ inner pi, arg = .binary "/" (.binary "*" inner pi) (.numLit 180)
        ∧ isMathPI pi = true ∧ degAngleOf arg = inner) ∧
    (∀ (g gOp : String) (x : Expr) (rest : List Expr) (c1 c2 : Bool),
      inverseTrigOp g = some gOp →
      matchInvTrig (.binary "/"
          (.binary "*" (.call (.member (.ident "Math") (.ident g) c1) (x :: rest))
            (.numLit 180))
          (.member (.ident "Math") (.ident "PI") c2)) = some (gOp, x)) ∧
    (∀ (f : Nat) (vars : TrVars) (bop : String) (l r : Expr) (st : Bool)
        (op : String) (x : Expr),
      matchInvTrig (.binary bop l r) = some (op, x) →
      processExpression (f + 1) vars (.binary bop l r) st =
        ((processExpression f vars x false).1,
         some (trigNodeOver op (processExpression f vars x false).2))) ∧
    (∀ (f : Nat) (vars : TrVars) (l r : Expr) (st : Bool),
      matchInvTrig (.binary "/" l r) = none →
      processExpression (f + 1) vars (.binary "/" l r) st =
        ((processExpression f (processExpression f vars l false).1 r false).1,
         some (.mk "math_arithmetic" [("OP", "DIVIDE")] 0
           [("A", slotOf (processExpression f vars l false).2),
            ("B", slotOf (processExpression f
              (processExpression f vars l false).1 r false).2)] none))) := by
  refine ⟨fun f vars fn op arg rest st htrig _ => ?_,
    fun inner => rfl, degAngleOf_cases,
    fun g gOp x rest c1 c2 hg => ?_,
    fun f vars bop l r st op x hm => ?_,
    fun f vars l r st hm => ?_⟩
  · rw [pe_call_mathfn, htrig]
    dsimp only
    rcases hp : processExpression f vars (degAngleOf arg) false with ⟨v', ab⟩
    cases ab with
    | none => rfl
    | some a =>
        simp only [connectValue, Block.hasInput, trigNodeOver, slotOf]
        cases hasOutputConn a.btype <;> rfl
  · have hred : matchInvTrig (.binary "/"
        (.binary "*" (.call (.member (.ident "Math") (.ident g) c1) (x :: rest))
          (.numLit 180))
        (.member (.ident "Math") (.ident "PI") c2)) =
      (match inverseTrigOp g with
       | some op => some (op, x)
       | none => none) := rfl
    rw [hred, hg]
  · rw [pe_binary, hm]
    dsimp only
    rcases hp : processExpression f vars x false with ⟨v', ab⟩
    cases ab with
    | none => rfl
    | some a =>
        simp only [connectValue, Block.hasInput, trigNodeOver, slotOf]
        cases hasOutputConn a.btype <;> rfl
  · rw [pe_binary, hm]
    dsimp only
    rcases hl : processExpression f vars l false with ⟨v1, lb⟩
    dsimp only
    rcases hr : processExpression f v1 r false with ⟨v2, rb⟩
    cases lb with
    | none =>
        cases rb with
        | none => rfl
        | some bb =>
            dsimp only
            simp only [connectValue, Block.hasInput, slotOf]
            cases hasOutputConn bb.btype <;> rfl
    | some ba =>
        cases rb with
        | none =>
            dsimp only
            simp only [connectValue, Block.hasInput, slotOf]
            cases hasOutputConn ba.btype <;> rfl
        | some bb =>
            dsimp only
            simp only [connectValue, Block.hasInput, slotOf]
            cases hasOutputConn ba.btype <;> cases hasOutputConn bb.btype <;> rfl

/-- Witness for C3: `Math.cos(angle * Math.PI / 180)`,
`Math.asin(x) * 180 / Math.PI`, and the unmatched division `a / b`. -/
theorem c3_trig_degree_idioms_witness :
    (trigOp "cos" = some "COS" ∧
      processExpression 6 []
          (.call (.member (.ident "Math") (.ident "cos") false)
            [mkDegShape (.ident "angle")]) false =
        ((processExpression 5 [] (degAngleOf (mkDegShape (.ident "angle"))) false).1,
         some (trigNodeOver "COS"
           (processExpression 5 [] (degAngleOf (mkDegShape (.ident "angle"))) false).2))) ∧
    (inverseTrigOp "asin" = some "ASIN" ∧
      matchInvTrig (.binary "/"
          (.binary "*" (.call (.member (.ident "Math") (.ident "asin") false)
            [.ident "x"]) (.numLit 180))
          (.member (.ident "Math") (.ident "PI") false)) = some ("ASIN", .ident "x")) ∧
    (matchInvTrig (.binary "/" (.ident "a") (.ident "b")) = none ∧
      processExpression 6 [] (.binary "/" (.ident "a") (.ident "b")) false =
        ((processExpression 5 (processExpression 5 [] (.ident "a") false).1
            (.ident "b") false).1,
         some (.mk "math_arithmetic" [("OP", "DIVIDE")] 0
           [("A", slotOf (processExpression 5 [] (.ident "a") false).2),
            ("B", slotOf (processExpression 5
              (processExpression 5 [] (.ident "a") false).1 (.ident "b") false).2)]
           none))) :=
  ⟨⟨rfl, c3_trig_degree_idioms.1 5 [] "cos" "COS" (mkDegShape (.ident "angle")) []
      false rfl (Or.inr (Or.inl rfl))⟩,
   ⟨rfl, c3_trig_degree_idioms.2.2.2.1 "asin" "ASIN" (.ident "x") [] false false rfl⟩,
   ⟨rfl, c3_trig_degree_idioms.2.2.2.2.2 5 [] (.ident "a") (.ident "b") false rfl⟩⟩

/-! ## Claim C6 -/

/-- **C6.** `valueToCode` wraps the child's rendered text in parentheses
iff the parent's required minimum precedence (outer order) is numerically
≤ the child's own precedence (inner order), with the single exception that
two equal boundary orders (0 or 99) never wrap; and the rendered child
tuple is fed through exactly this decision. -/
theorem c6_parenthesization :
    (∀ (outerOrder innerOrder : Nat) (code : String),
      pyApplyParens outerOrder innerOrder code =
        if outerOrder ≤ innerOrder
            ∧ ¬(outerOrder = innerOrder ∧ (outerOrder = 0 ∨ outerOrder = 99)) then
          "(" ++ code ++ ")"
        else code) ∧
    (∀ (f : Nat) (s s' : PyState) (b target : Block) (name : String)
        (outerOrder : Nat) (code : String) (innerOrder : Nat),
      b.getInputTarget name = some target →
      pyBlockToCode f (some target) s = .ok (.tupleOut code innerOrder, s') →
      code ≠ "" →
      pyValueToCode (f + 1) b name outerOrder s =
        .ok (pyApplyParens outerOrder innerOrder code, s')) := by
  constructor
  · intro o i code
    unfold pyApplyParens
    by_cases h1 : o ≤ i
    · by_cases h2 : o = i ∧ (o = 0 ∨ o = 99)
      · obtain ⟨e, d⟩ := h2
        subst e
        rcases d with d | d <;> subst d <;> simp
      · have hb : (o == i && (o == 0 || o == 99)) = false := by
          rcases Decidable.em (o = i) with he | he
          · subst he
            have h0 : o ≠ 0 := fun hh => h2 ⟨rfl, Or.inl hh⟩
            have h99 : o ≠ 99 := fun hh => h2 ⟨rfl, Or.inr hh⟩
            simp [h0, h99]
          · simp [he]
        simp [h1, hb, h2]
    · have hc : ¬(o ≤ i ∧ ¬(o = i ∧ (o = 0 ∨ o = 99))) := fun hc => h1 hc.1
      simp [h1, hc]
  · intro f s s' b target name o code i h1 h2 h3
    have hne : (code == "") = false := by simp [h3]
    simp [pyValueToCode, h1, StateT.run, bind, StateT.bind, h2, Except.bind, hne,
      pure, StateT.pure, Except.pure]

/-- Witness graph for C6: a `log` block whose `MESSAGE` slot holds the
number 5. -/
def c6NumBlock : Block := .mk "math_number" [("NUM", "5")] 0 [] none

def c6Blk : Block := .mk "log" [] 0 [("MESSAGE", some c6NumBlock)] none

/-- Witness for C6 at a concrete slot rendering. -/
theorem c6_parenthesization_witness :
    Block.getInputTarget c6Blk "MESSAGE" = some c6NumBlock ∧
    pyBlockToCode 5 (some c6NumBlock) ⟨[], [], none⟩ =
      .ok (.tupleOut "5" 0, ⟨[], [], none⟩) ∧
    "5" ≠ "" ∧
    pyValueToCode 6 c6Blk "MESSAGE" 11 ⟨[], [], none⟩ =
      .ok (pyApplyParens 11 0 "5", ⟨[], [], none⟩) :=
  ⟨rfl, rfl, by decide,
    c6_parenthesization.2 5 ⟨[], [], none⟩ ⟨[], [], none⟩ c6Blk c6NumBlock
      "MESSAGE" 11 "5" 0 rfl rfl (by decide)⟩

/-! ## Claim C8 -/

/-- **C8.** Generation is insensitive to the pre-existing generator
context: `init` produces the same fresh context (empty deferred
definitions, empty function-name map, reset name table) whatever the
previous state was, so `workspaceToCode` returns the same result from any
two starting states — in particular, running it twice on the same
unchanged workspace yields identical output text. -/
theorem c8_generation_idempotent :
    (∀ (s₁ s₂ : PyState) (ws : Workspace), pyInit s₁ ws = pyInit s₂ ws) ∧
    (∀ (fuel : Nat) (s₁ s₂ : PyState) (ws : Workspace),
      pyWorkspaceToCode fuel s₁ ws = pyWorkspaceToCode fuel s₂ ws) ∧
    (∀ (fuel : Nat) (s : PyState) (ws : Workspace) (out : String) (s' : PyState),
      pyWorkspaceToCode fuel s ws = .ok (out, s') →
      pyWorkspaceToCode fuel s' ws = .ok (out, s')) := by
  have hinit : ∀ (s₁ s₂ : PyState) (ws : Workspace), pyInit s₁ ws = pyInit s₂ ws := by
    intro s₁ s₂ ws
    rcases s₁ with ⟨d₁, fn₁, n₁⟩
    rcases s₂ with ⟨d₂, fn₂, n₂⟩
    cases n₁ <;> cases n₂ <;> rfl
  have hdet : ∀ (fuel : Nat) (s₁ s₂ : PyState) (ws : Workspace),
      pyWorkspaceToCode fuel s₁ ws = pyWorkspaceToCode fuel s₂ ws := by
    intro fuel s₁ s₂ ws
    unfold pyWorkspaceToCode
    rw [hinit s₁ s₂ ws]
  exact ⟨hinit, hdet, fun fuel s ws out s' h => (hdet fuel s' s ws).trans h⟩

/-- Witness for C8: rendering a one-block workspace twice in a row. -/
theorem c8_generation_idempotent_witness :
    pyWorkspaceToCode 20 ⟨[], [], none⟩ ⟨[.mk "reboot_all" [] 0 [] none], []⟩ =
      .ok ("# reboot_all not supported in Python API\n", ⟨[], [], some ⟨[], []⟩⟩) ∧
    pyWorkspaceToCode 20 ⟨[], [], some ⟨[], []⟩⟩ ⟨[.mk "reboot_all" [] 0 [] none], []⟩ =
      .ok ("# reboot_all not supported in Python API\n", ⟨[], [], some ⟨[], []⟩⟩) :=
  ⟨rfl, c8_generation_idempotent.2.2 20 ⟨[], [], none⟩
    ⟨[.mk "reboot_all" [] 0 [] none], []⟩
    "# reboot_all not supported in Python API\n" ⟨[], [], some ⟨[], []⟩⟩ rfl⟩

/-! ## Claim C4 -/

/-- C4: arithmetic `+` first flattens the left-associative `+` chain into
its ordered non-`+` operands; if any flattened operand is a string literal
the translator emits a single variadic `text_join` block whose
`ADD0..ADD(n-1)` slots carry the slot contents of the operands' independent
left-to-right translations; otherwise it emits a binary `math_arithmetic`
`ADD` block over exactly the original two operands (left translated before
right, the flattening having had no effect beyond the classification
probe). -/
theorem c4_concat_classification :
    (∀ (f : Nat) (vars : TrVars) (l r : Expr) (st : Bool),
      (flattenStringConcat (.binary "+" l r)).any Expr.isStrLit = true →
      (flattenStringConcat (.binary "+" l r)).length ≤ f →
      processExpression (f + 1) vars (.binary "+" l r) st =
        (varsAfterParts f vars (flattenStringConcat (.binary "+" l r)),
         some (.mk "text_join" []
           (flattenStringConcat (.binary "+" l r)).length
           ((((List.range (flattenStringConcat (.binary "+" l r)).length).map
                 (fun k => ("ADD" ++ toString k : String))).zip
               (translationsOfParts f vars
                 (flattenStringConcat (.binary "+" l r)))).map
             (fun q => (q.1, slotOf q.2))) none))) ∧
    (∀ (f : Nat) (vars : TrVars) (l r : Expr) (st : Bool),
      (flattenStringConcat (.binary "+" l r)).any Expr.isStrLit = false →
      processExpression (f + 1) vars (.binary "+" l r) st =
        ((processExpression f (processExpression f vars l false).1 r false).1,
         some (.mk "math_arithmetic" [("OP", "ADD")] 0
           [("A", slotOf (processExpression f vars l false).2),
            ("B", slotOf (processExpression f
                (processExpression f vars l false).1 r false).2)]
           none))) := by
  constructor
  · intro f vars l r st hs hf
    rw [pe_binary]
    have hmt : matchInvTrig (.binary "+" l r) = none := rfl
    rw [hmt]
    dsimp only
    rw [if_neg (by decide : ¬ (comparisonOps.contains "+" = true))]
    have hcond : (("+" == "+" : Bool)
        && (flattenStringConcat (.binary "+" l r)).any Expr.isStrLit)
          = true := by
      rw [hs]; decide
    rw [if_pos hcond]
    rw [connectParts_eq_connectFields, ← List.range_eq_range']
    have hshape : setItemCount (newBlock "text_join")
        (flattenStringConcat (.binary "+" l r)).length
      = Block.mk "text_join" []
          (flattenStringConcat (.binary "+" l r)).length
          ([] ++ ((List.range
              (flattenStringConcat (.binary "+" l r)).length).map
              (fun k => ("ADD" ++ toString k : String))).map
            (fun nm => (nm, (none : Option Block)))) none := by
      simp [setItemCount, newBlock, List.map_map, Function.comp]
    rw [hshape]
    have hlen : (((List.range
        (flattenStringConcat (.binary "+" l r)).length).map
        (fun k => ("ADD" ++ toString k : String))).length)
        = (flattenStringConcat (.binary "+" l r)).length := by
      simp
    rw [connectFields_spec
      ((List.range (flattenStringConcat (.binary "+" l r)).length).map
        (fun k => ("ADD" ++ toString k : String)))
      (flattenStringConcat (.binary "+" l r)) f vars "text_join" []
      (flattenStringConcat (.binary "+" l r)).length none [] hf hlen
      (addNames_nodup _) (by simp)]
    rfl
  · intro f vars l r st hs
    rw [pe_binary]
    have hmt : matchInvTrig (.binary "+" l r) = none := rfl
    rw [hmt]
    dsimp only
    rw [if_neg (by decide : ¬ (comparisonOps.contains "+" = true))]
    have hcond : (("+" == "+" : Bool)
        && (flattenStringConcat (.binary "+" l r)).any Expr.isStrLit)
          = false := by
      rw [hs]; decide
    rw [hcond, if_neg Bool.false_ne_true,
      if_pos (by decide : arithmeticOps.contains "+" = true)]
    rcases h1 : processExpression f vars l false with ⟨v1, lb⟩
    dsimp only
    rcases h2 : processExpression f v1 r false with ⟨v2, rb⟩
    dsimp only
    cases lb with
    | none =>
        cases rb with
        | none => rfl
        | some y =>
            simp only [connectValue, Block.hasInput, slotOf]
            cases hasOutputConn y.btype <;> rfl
    | some x =>
        cases rb with
        | none =>
            simp only [connectValue, Block.hasInput, slotOf]
            cases hasOutputConn x.btype <;> rfl
        | some y =>
            simp only [connectValue, Block.hasInput, slotOf]
            cases hasOutputConn x.btype <;> cases hasOutputConn y.btype <;> rfl

theorem c4_concat_classification_witness :
    ((flattenStringConcat
        (.binary "+" (.strLit "x: ") (.ident "n"))).any Expr.isStrLit = true
     ∧ (flattenStringConcat
         (.binary "+" (.strLit "x: ") (.ident "n"))).length ≤ 2
     ∧ processExpression 3 [] (.binary "+" (.strLit "x: ") (.ident "n")) false
         = (varsAfterParts 2 []
             (flattenStringConcat (.binary "+" (.strLit "x: ") (.ident "n"))),
            some (.mk "text_join" []
              (flattenStringConcat
                (.binary "+" (.strLit "x: ") (.ident "n"))).length
              ((((List.range (flattenStringConcat
                    (.binary "+" (.strLit "x: ") (.ident "n"))).length).map
                    (fun k => ("ADD" ++ toString k : String))).zip
                  (translationsOfParts 2 []
                    (flattenStringConcat
                      (.binary "+" (.strLit "x: ") (.ident "n"))))).map
                (fun q => (q.1, slotOf q.2))) none)))
    ∧ ((flattenStringConcat
          (.binary "+" (.ident "a") (.ident "b"))).any Expr.isStrLit = false
       ∧ processExpression 3 [] (.binary "+" (.ident "a") (.ident "b")) false
           = ((processExpression 2
                 (processExpression 2 [] (.ident "a") false).1
                 (.ident "b") false).1,
              some (.mk "math_arithmetic" [("OP", "ADD")] 0
                [("A", slotOf (processExpression 2 [] (.ident "a") false).2),
                 ("B", slotOf (processExpression 2
                     (processExpression 2 [] (.ident "a") false).1
                     (.ident "b") false).2)] none))) :=
  ⟨⟨by decide, by decide,
     c4_concat_classification.1 2 [] (.strLit "x: ") (.ident "n") false
       (by decide) (by decide)⟩,
   ⟨by decide,
     c4_concat_classification.2 2 [] (.ident "a") (.ident "b") false
       (by decide)⟩⟩

/-! ## Claim C5 -/

/-- C5: a six-element array literal always translates to the structured
`create_coordinates` pose block whose six named slots `X,Y,Z,ROLL,PITCH,YAW`
carry the slot contents of the elements' left-to-right translations, never
the generic sequence block; an array literal of any other length (five,
seven, ...) always translates to the generic `lists_create_with` sequence
block with one `ADDi` slot per element. -/
theorem c5_pose_vs_sequence :
    (∀ (f : Nat) (vars : TrVars) (elems : List Expr) (st : Bool),
      elems.length = 6 → elems.length ≤ f →
      processExpression (f + 1) vars (.arrayLit elems) st =
        (varsAfterParts f vars elems,
         some (.mk "create_coordinates" [] 0
           (((["X", "Y", "Z", "ROLL", "PITCH", "YAW"] : List String).zip
               (translationsOfParts f vars elems)).map
             (fun q => (q.1, slotOf q.2))) none))) ∧
    (∀ (f : Nat) (vars : TrVars) (elems : List Expr) (st : Bool),
      elems.length ≠ 6 → elems.length ≤ f →
      processExpression (f + 1) vars (.arrayLit elems) st =
        (varsAfterParts f vars elems,
         some (.mk "lists_create_with" [] elems.length
           ((((List.range elems.length).map
                 (fun k => ("ADD" ++ toString k : String))).zip
               (translationsOfParts f vars elems)).map
             (fun q => (q.1, slotOf q.2))) none))) := by
  constructor
  · intro f vars elems st h6 hf
    rw [pe_arrayLit]
    have hb : (elems.length == 6) = true := by
      rw [h6]; decide
    rw [if_pos hb]
    have hnb : newBlock "create_coordinates"
      = Block.mk "create_coordinates" [] 0
          ([] ++ (["X", "Y", "Z", "ROLL", "PITCH", "YAW"] : List String).map
            (fun nm => (nm, (none : Option Block)))) none := rfl
    rw [hnb]
    have hlen : (["X", "Y", "Z", "ROLL", "PITCH", "YAW"] : List String).length
        = elems.length := by
      rw [h6]; decide
    rw [connectFields_spec ["X", "Y", "Z", "ROLL", "PITCH", "YAW"] elems f vars
      "create_coordinates" [] 0 none [] hf hlen (by decide) (by simp)]
    rfl
  · intro f vars elems st hne hf
    rw [pe_arrayLit]
    have hb : (elems.length == 6) = false := beq_eq_false_iff_ne.mpr hne
    rw [hb, if_neg Bool.false_ne_true]
    rw [connectParts_eq_connectFields, ← List.range_eq_range']
    have hshape : setItemCount (newBlock "lists_create_with") elems.length
      = Block.mk "lists_create_with" [] elems.length
          ([] ++ ((List.range elems.length).map
              (fun k => ("ADD" ++ toString k : String))).map
            (fun nm => (nm, (none : Option Block)))) none := by
      simp [setItemCount, newBlock, List.map_map, Function.comp]
    rw [hshape]
    have hlen : (((List.range elems.length).map
        (fun k => ("ADD" ++ toString k : String))).length) = elems.length := by
      simp
    rw [connectFields_spec
      ((List.range elems.length).map
        (fun k => ("ADD" ++ toString k : String)))
      elems f vars "lists_create_with" [] elems.length none [] hf hlen
      (addNames_nodup _) (by simp)]
    rfl

theorem c5_pose_vs_sequence_witness :
    (([Expr.numLit 1, .numLit 2, .numLit 3, .numLit 4, .numLit 5,
        .numLit 6].length = 6
      ∧ [Expr.numLit 1, .numLit 2, .numLit 3, .numLit 4, .numLit 5,
          .numLit 6].length ≤ 6
      ∧ processExpression 7 []
          (.arrayLit [.numLit 1, .numLit 2, .numLit 3, .numLit 4, .numLit 5,
            .numLit 6]) false
        = (varsAfterParts 6 []
            [.numLit 1, .numLit 2, .numLit 3, .numLit 4, .numLit 5,
              .numLit 6],
           some (.mk "create_coordinates" [] 0
             (((["X", "Y", "Z", "ROLL", "PITCH", "YAW"] : List String).zip
                 (translationsOfParts 6 []
                   [.numLit 1, .numLit 2, .numLit 3, .numLit 4, .numLit 5,
                     .numLit 6])).map
               (fun q => (q.1, slotOf q.2))) none))))
    ∧ ([Expr.numLit 1, .numLit 2, .numLit 3, .numLit 4, .numLit 5].length ≠ 6
       ∧ processExpression 7 []
           (.arrayLit [.numLit 1, .numLit 2, .numLit 3, .numLit 4,
             .numLit 5]) false
         = (varsAfterParts 6 []
             [.numLit 1, .numLit 2, .numLit 3, .numLit 4, .numLit 5],
            some (.mk "lists_create_with" []
              [Expr.numLit 1, .numLit 2, .numLit 3, .numLit 4,
                .numLit 5].length
              ((((List.range [Expr.numLit 1, .numLit 2, .numLit 3, .numLit 4,
                    .numLit 5].length).map
                    (fun k => ("ADD" ++ toString k : String))).zip
                  (translationsOfParts 6 []
                    [.numLit 1, .numLit 2, .numLit 3, .numLit 4,
                      .numLit 5])).map
                (fun q => (q.1, slotOf q.2))) none))) :=
  ⟨⟨by decide, by decide,
     c5_pose_vs_sequence.1 6 []
       [.numLit 1, .numLit 2, .numLit 3, .numLit 4, .numLit 5, .numLit 6]
       false (by decide) (by decide)⟩,
   ⟨by decide,
     c5_pose_vs_sequence.2 6 []
       [.numLit 1, .numLit 2, .numLit 3, .numLit 4, .numLit 5] false
       (by decide) (by decide)⟩⟩

end ReachyBlockly
